import Mathlib

/-!
Shallow embedding of the UniCal rule-based calendar query engine
(`src/app/api/ai/query/route.ts` and the utils module) in Lean 4.

Modelling conventions:
* Instants are `Int` milliseconds since the Unix epoch; the server locale is
  modelled as UTC, so JavaScript local-time operations (`setHours`,
  `getDay`, `toLocaleTimeString`) coincide with their UTC versions.
* A JavaScript `Date` value is `Option Int`: `some t` for a valid instant,
  `none` for an Invalid Date (`NaN` time value).  Comparisons involving
  `NaN` are `false`, mirroring JS semantics; `toISOString` on an Invalid
  Date throws a `RangeError`, modelled with `Except JsError`.
* JS `Array.prototype.sort` with a numeric comparator is stable
  (ES2019+); a comparator evaluating to `NaN` is treated as `+0` by the
  spec, so events with unparseable dates compare as equal.
-/

namespace UniCal

/-- Milliseconds per day. -/
def msPerDay : Int := 86400000

/-- Milliseconds per hour. -/
def msPerHour : Int := 3600000

/-- Milliseconds per minute. -/
def msPerMinute : Int := 60000

/-- Civil date from a day number (days since 1970-01-01), returning
(year, month, day) in the proleptic Gregorian calendar (Howard Hinnant's
`civil_from_days` algorithm, as used by JS `Date` UTC accessors). -/
def civilFromDays (days : Int) : Int × Int × Int :=
  let z := days + 719468
  let era := (z / 146097)
  let doe := z - era * 146097
  let yoe := ((doe - (doe / 1460) + (doe / 36524) - (doe / 146096)) / 365)
  let y := yoe + era * 400
  let doy := doe - (365 * yoe + (yoe / 4) - (yoe / 100))
  let mp := ((5 * doy + 2) / 153)
  let d := doy - ((153 * mp + 2) / 5) + 1
  let m := mp + (if mp < 10 then 3 else -9)
  (y + (if m ≤ 2 then 1 else 0), m, d)

/-- Day number from a civil date (inverse of `civilFromDays`); a
day-of-month larger than the month length overflows linearly into the
following month, exactly like JS `Date` field normalisation. -/
def daysFromCivil (y m d : Int) : Int :=
  let y1 := y - (if m ≤ 2 then 1 else 0)
  let era := (y1 / 400)
  let yoe := y1 - era * 400
  let mp := m + (if m > 2 then -3 else 9)
  let doy := ((153 * mp + 2) / 5) + d - 1
  let doe := yoe * 365 + (yoe / 4) - (yoe / 100) + doy
  era * 146097 + doe - 719468

/-- Is `y` a leap year (Gregorian)? -/
def isLeapYear (y : Int) : Bool :=
  (y % 4) == 0 && ((y % 100) != 0 || (y % 400) == 0)

/-- Number of days in month `m` of year `y`. -/
def daysInMonth (y m : Int) : Int :=
  if m == 2 then (if isLeapYear y then 29 else 28)
  else if m == 4 || m == 6 || m == 9 || m == 11 then 30
  else 31

/-- UTC midnight of the day containing instant `t` (JS `setHours(0,0,0,0)`). -/
def dayStart (t : Int) : Int := (t / msPerDay) * msPerDay

/-- Day of week of instant `t` (0 = Sunday .. 6 = Saturday); day 0 of the
epoch was a Thursday. -/
def dayOfWeekIdx (t : Int) : Int := ((t / msPerDay) + 4) % 7

/-- Year of the civil date of instant `t`. -/
def yearOf (t : Int) : Int := (civilFromDays ((t / msPerDay))).1

/-- Month (1..12) of the civil date of instant `t`. -/
def monthOf (t : Int) : Int := (civilFromDays ((t / msPerDay))).2.1

/-- Day of month of the civil date of instant `t`. -/
def dayOfMonthOf (t : Int) : Int := (civilFromDays ((t / msPerDay))).2.2

/-- Lowercase weekday names indexed 0..6, the `weekdayNames` table of the
rule-based engine. -/
def weekdayNamesLower : List String :=
  ["sunday", "monday", "tuesday", "wednesday", "thursday", "friday", "saturday"]

/-- Capitalised weekday names indexed 0..6 (JS `toLocaleDateString` long
weekday, and the capitalised `weekdayNames` table of the date branch). -/
def weekdayNamesCap : List String :=
  ["Sunday", "Monday", "Tuesday", "Wednesday", "Thursday", "Friday", "Saturday"]

/-- Month names indexed 0..11 (the `monthNames` table). -/
def monthNames : List String :=
  ["January", "February", "March", "April", "May", "June",
   "July", "August", "September", "October", "November", "December"]

/-- Lookup in a name table with out-of-range index mapped to "undefined"
(JS indexing with a bad index yields `undefined` inside a template). -/
def nameAt (tbl : List String) (i : Int) : String :=
  if h : 0 ≤ i ∧ i.toNat < tbl.length then tbl.get ⟨i.toNat, h.2⟩ else "undefined"

/-- Two-digit zero padding of a nonnegative integer. -/
def pad2 (n : Int) : String :=
  if n < 10 then "0" ++ toString n else toString n

/-- Four-digit zero padding of a nonnegative integer (ISO year field). -/
def pad4 (n : Int) : String :=
  if n < 10 then "000" ++ toString n
  else if n < 100 then "00" ++ toString n
  else if n < 1000 then "0" ++ toString n
  else toString n

/-- The `YYYY-MM-DD` prefix of `toISOString()` of a valid instant. -/
def isoDayKey (t : Int) : String :=
  let c := civilFromDays ((t / msPerDay))
  pad4 c.1 ++ "-" ++ pad2 c.2.1 ++ "-" ++ pad2 c.2.2

/-- 12-hour clock rendering of a millisecond offset into a day:
`toLocaleTimeString('en-US', hour numeric, minute 2-digit, hour12)`. -/
def format12ms (ms : Int) : String :=
  let h := (ms / msPerHour)
  let mi := (((ms % msPerHour)) / msPerMinute)
  let h12 := if (h % 12) == 0 then 12 else (h % 12)
  toString h12 ++ ":" ++ pad2 mi ++ " " ++ (if h < 12 then "AM" else "PM")

/-- 12-hour clock rendering of a valid instant. -/
def format12 (t : Int) : String := format12ms ((t % msPerDay))

/-- JS `toLocaleTimeString` on a possibly Invalid `Date` (an Invalid Date
renders as the string "Invalid Date"; it does not throw). -/
def formatTimeJS (d : Option Int) : String :=
  match d with
  | some t => format12 t
  | none => "Invalid Date"

/-- JS `toLocaleDateString('en-US', long weekday, long month, numeric
day)` on a possibly Invalid `Date`, e.g. "Monday, April 21". -/
def formatDateLongJS (d : Option Int) : String :=
  match d with
  | some t =>
      nameAt weekdayNamesCap (dayOfWeekIdx t) ++ ", " ++
        nameAt monthNames (monthOf t - 1) ++ " " ++ toString (dayOfMonthOf t)
  | none => "Invalid Date"

/-- Convenience constructor for a UTC instant from civil components. -/
def mkUtc (y m d hh mi : Int) : Int :=
  daysFromCivil y m d * msPerDay + hh * msPerHour + mi * msPerMinute

/-! ### String utilities (JS string semantics) -/

/-- ASCII whitespace as matched by the JS `\s` class (the rarer Unicode
whitespace code points are not modelled). -/
def isWsChar (c : Char) : Bool := c == ' ' || c == '\t' || c == '\n' || c == '\r'

/-- JS `String.prototype.includes` (substring test). -/
def strIncludes (s sub : String) : Bool :=
  s.toList.tails.any fun t => sub.toList.isPrefixOf t

/-- JS `String.prototype.toLowerCase` (ASCII-adequate; list-based so
that the kernel can evaluate it). -/
def jsToLower (s : String) : String := String.mk (s.toList.map Char.toLower)

/-- JS `String.prototype.trim` (list-based). -/
def jsTrim (s : String) : String :=
  String.mk (((s.toList.dropWhile isWsChar).reverse.dropWhile isWsChar).reverse)

/-- Numeric value of a digit-only capture (`parseInt` on the captures of
the scanners, which are guaranteed nonempty digit strings). -/
def digitsToNat (s : String) : Nat :=
  s.toList.foldl (fun n c => n * 10 + (c.toNat - 48)) 0

/-- Worker for `jsSplitWs`: the current run of non-whitespace is
accumulated reversed in `curr`; `inWs` records being inside a separator
run (further whitespace is then absorbed without emitting tokens). -/
def jsSplitWsGo : List Char → List Char → Bool → List String
  | [], curr, _ => [String.mk curr.reverse]
  | c :: rest, curr, inWs =>
    if isWsChar c then
      if inWs then jsSplitWsGo rest curr true
      else String.mk curr.reverse :: jsSplitWsGo rest [] true
    else
      jsSplitWsGo rest (c :: curr) false

/-- JS `split(/\s+/)`: splits at maximal whitespace runs; a leading or
trailing run contributes an empty token, and the empty string yields
`[""]`. -/
def jsSplitWs (s : String) : List String := jsSplitWsGo s.toList [] false

/-- JS `replace(/[^\w\s-]/gi, '')`: delete every character that is not a
word character, whitespace or a hyphen. -/
def jsRemovePunct (s : String) : String :=
  String.mk (s.toList.filter fun c => c.isAlphanum || c == '_' || c == '-' || isWsChar c)

/-- Worker for `jsReplaceFirst` over character lists. -/
def jsReplaceFirstGo (pat repl : List Char) : List Char → List Char
  | [] => []
  | c :: rest =>
    if pat.isPrefixOf (c :: rest) then repl ++ (c :: rest).drop pat.length
    else c :: jsReplaceFirstGo pat repl rest

/-- JS `String.prototype.replace` with a nonempty literal pattern:
replaces the first occurrence only. -/
def jsReplaceFirst (s pat repl : String) : String :=
  if pat.toList.isEmpty then repl ++ s
  else String.mk (jsReplaceFirstGo pat.toList repl.toList s.toList)

/-! ### Regex scanners

Each regular expression of the source is modelled by a backtracking
scanner over character lists: positions are tried left to right
(`List.tails`), and within a position alternatives are tried in the
engine's order (greedy `\d{1,2}` tries two digits before one, a lazy
`(.+?)` grows one character at a time). -/

/-- Candidates for a greedy `\d{1,2}`, longest first: (digits, rest). -/
def digit12 (cs : List Char) : List (List Char × List Char) :=
  match cs with
  | c1 :: c2 :: rest =>
    if c1.isDigit then
      if c2.isDigit then [([c1, c2], rest), ([c1], c2 :: rest)]
      else [([c1], c2 :: rest)]
    else []
  | [c1] => if c1.isDigit then [([c1], [])] else []
  | [] => []

/-- Exactly `n` digits (`\d{n}`). -/
def digitsExact (n : Nat) (cs : List Char) : Option (List Char × List Char) :=
  let taken := cs.take n
  if taken.length == n && taken.all Char.isDigit then some (taken, cs.drop n) else none

/-- Consume one expected character. -/
def expectChar (c : Char) (cs : List Char) : Option (List Char) :=
  match cs with
  | x :: rest => if x == c then some rest else none
  | [] => none

/-- Consume a case-sensitive literal. -/
def matchLitGo : List Char → List Char → Option (List Char)
  | [], cs => some cs
  | l :: ls, c :: cs => if c == l then matchLitGo ls cs else none
  | _ :: _, [] => none

/-- Consume a case-insensitive literal (the literal is given lowercase). -/
def matchLitCIGo : List Char → List Char → Option (List Char)
  | [], cs => some cs
  | l :: ls, c :: cs => if c.toLower == l then matchLitCIGo ls cs else none
  | _ :: _, [] => none

/-- Source `\s*`. -/
def skipWs (cs : List Char) : List Char := cs.dropWhile isWsChar

/-- Source `\s+`, returning (consumed whitespace, rest). -/
def wsSplit (cs : List Char) : Option (List Char × List Char) :=
  let w := cs.takeWhile isWsChar
  if w.isEmpty then none else some (w, cs.drop w.length)

/-- First match of `/(\d{1,2})\/(\d{1,2})\/(\d{4})/` in `s`, as the
captured (day, month, year) digit strings. -/
def scanDMY (s : String) : Option (String × String × String) :=
  s.toList.tails.findSome? fun cs =>
    (digit12 cs).findSome? fun dd =>
      (expectChar '/' dd.2).bind fun r2 =>
        (digit12 r2).findSome? fun mm =>
          (expectChar '/' mm.2).bind fun r4 =>
            (digitsExact 4 r4).map fun yy =>
              (String.mk dd.1, String.mk mm.1, String.mk yy.1)

/-- First match of `/(\d{4})-(\d{1,2})-(\d{1,2})/` in `s`, as the
captured (year, month, day) digit strings. -/
def scanYMD (s : String) : Option (String × String × String) :=
  s.toList.tails.findSome? fun cs =>
    (digitsExact 4 cs).bind fun yy =>
      (expectChar '-' yy.2).bind fun r2 =>
        (digit12 r2).findSome? fun mm =>
          (expectChar '-' mm.2).bind fun r4 =>
            (digit12 r4).findSome? fun dd =>
              some (String.mk yy.1, String.mk mm.1, String.mk dd.1)

/-- Optional `(?::(\d{2}))?` group, greedy: with-group candidate first. -/
def colonMM (cs : List Char) : List (Option String × List Char) :=
  match expectChar ':' cs with
  | some r1 =>
    match digitsExact 2 r1 with
    | some mm => [(some (String.mk mm.1), mm.2), (none, cs)]
    | none => [(none, cs)]
  | none => [(none, cs)]

/-- Source `(am|pm)` case-insensitively; yields the lowercased token. -/
def ampmTok (cs : List Char) : Option (String × List Char) :=
  match cs with
  | a :: b :: rest =>
    if b.toLower == 'm' && (a.toLower == 'a' || a.toLower == 'p') then
      some (String.mk [a.toLower, b.toLower], rest)
    else none
  | _ => none

/-- Tail of the clock-time regexes at a fixed position:
`(\d{1,2})(?::(\d{2}))?\s*(am|pm)` with groups (hour, minutes?, am/pm). -/
def timeTailAt (cs : List Char) : Option (String × Option String × String) :=
  (digit12 cs).findSome? fun hh =>
    (colonMM hh.2).findSome? fun mm =>
      (ampmTok (skipWs mm.2)).map fun ap => (String.mk hh.1, mm.1, ap.1)

/-- First match of `/(\d{1,2})(?::(\d{2}))?\s*(am|pm)/i`. -/
def scanTime (s : String) : Option (String × Option String × String) :=
  s.toList.tails.findSome? timeTailAt

/-- First match of `/after\s+(\d{1,2})(?::(\d{2}))?\s*(am|pm)/i`. -/
def scanAfterTime (s : String) : Option (String × Option String × String) :=
  s.toList.tails.findSome? fun cs =>
    (matchLitCIGo "after".toList cs).bind fun r1 =>
      (wsSplit r1).bind fun w => timeTailAt w.2

/-- First match of `/before\s+(\d{1,2})(?::(\d{2}))?\s*(am|pm)/i`. -/
def scanBeforeTime (s : String) : Option (String × Option String × String) :=
  s.toList.tails.findSome? fun cs =>
    (matchLitCIGo "before".toList cs).bind fun r1 =>
      (wsSplit r1).bind fun w => timeTailAt w.2

/-- Test of `/free at \d/` (case-sensitive, no captures). -/
def hasFreeAtDigit (s : String) : Bool :=
  s.toList.tails.any fun cs =>
    match matchLitGo "free at ".toList cs with
    | some (c :: _) => c.isDigit
    | _ => false

/-- Stop condition for the lazy capture of
`/how many (.+?) (?:meetings|do I have)/`: a space followed by
"meetings" or by the (dead, case-mismatched) literal "do I have". -/
def hmStops (cs : List Char) : Bool :=
  match cs with
  | ' ' :: r => "meetings".toList.isPrefixOf r || "do I have".toList.isPrefixOf r
  | _ => false

/-- Lazy `(.+?)` for the how-many-type regex: grow one character at a
time (at least one) until the stop condition holds. -/
def lazyHM : List Char → List Char → Option String
  | [], _ => none
  | c :: rest, acc =>
    if hmStops rest then some (String.mk (c :: acc).reverse) else lazyHM rest (c :: acc)

/-- First capture of `/how many (.+?) (?:meetings|do I have)/`. -/
def scanHowManyType (s : String) : Option String :=
  s.toList.tails.findSome? fun cs =>
    (matchLitGo "how many ".toList cs).bind fun r1 => lazyHM r1 []

/-- Stop condition `(?:$|\?|on|at|in)` of the person-name regex,
case-insensitively. -/
def pnStops (cs : List Char) : Bool :=
  match cs with
  | [] => true
  | '?' :: _ => true
  | a :: b :: _ =>
    (a.toLower == 'o' && b.toLower == 'n') ||
      (a.toLower == 'a' && b.toLower == 't') ||
      (a.toLower == 'i' && b.toLower == 'n')
  | _ => false

/-- Lazy `(.+?)` for the person-name regex, preserving original case. -/
def pnCapture : List Char → List Char → Option String
  | [], _ => none
  | c :: rest, acc =>
    if pnStops rest then some (String.mk (c :: acc).reverse) else pnCapture rest (c :: acc)

/-- First capture of `/(?:meeting|meetings) with (.+?)(?:$|\?|on|at|in)/i`;
the alternation tries "meeting" before "meetings". -/
def personNameScan (s : String) : Option String :=
  s.toList.tails.findSome? fun cs =>
    (matchLitCIGo "meeting".toList cs).bind fun r1 =>
      match matchLitCIGo " with ".toList r1 with
      | some r2 => pnCapture r2 []
      | none => (matchLitCIGo "s with ".toList r1).bind fun r2 => pnCapture r2 []

/-- Source `[A-Za-z]+`, greedy, returning (letters, rest). -/
def lettersTake (cs : List Char) : Option (List Char × List Char) :=
  let w := cs.takeWhile fun c => c.isAlpha
  if w.isEmpty then none else some (w, cs.drop w.length)

/-- First capture of `/with\s+([A-Za-z]+(?:\s+[A-Za-z]+)?)/`
(case-sensitive); the capture keeps the whitespace between the two
words. -/
def wordPairScan (s : String) : Option String :=
  s.toList.tails.findSome? fun cs =>
    (matchLitGo "with".toList cs).bind fun r1 =>
      (wsSplit r1).bind fun w1 =>
        (lettersTake w1.2).map fun l1 =>
          match wsSplit l1.2 with
          | some w2 =>
            match lettersTake w2.2 with
            | some l2 => String.mk (l1.1 ++ w2.1 ++ l2.1)
            | none => String.mk l1.1
          | none => String.mk l1.1

/-- The first weekday name (Sunday-first order) contained in the
normalized query, as in the weekday-detection loop. -/
def firstWeekdayIn (nq : String) : Option Nat :=
  (List.range 7).find? fun i => strIncludes nq (weekdayNamesLower.getD i "")

/-! ### The event data model

`CalendarEventData` carries `start`/`end` as raw strings; the engine
re-parses them with `new Date(...)` at each use.  JS date parsing itself
is not modelled: an event carries, next to each raw string, the instant
that `new Date` yields on it (`none` for an Invalid Date).  Concrete
inputs in the theorems below use consistent pairs (an ISO raw string
together with its instant). -/

structure CalEvent where
  id : String
  title : String
  start : String
  «end» : String
  /-- the value of `new Date(start)` -/
  startD : Option Int
  /-- the value of `new Date(end)` -/
  endD : Option Int
  location : Option String
  description : Option String
  source : String
  allDay : Option Bool
  meetingLink : Option String
deriving Repr, DecidableEq

/-- JS `<` on two `Date` values (false if either is Invalid/NaN). -/
def jsLtD : Option Int → Option Int → Bool
  | some a, some b => a < b
  | _, _ => false

/-- JS `<=` on two `Date` values (false if either is Invalid/NaN). -/
def jsLeD : Option Int → Option Int → Bool
  | some a, some b => a ≤ b
  | _, _ => false

/-- JS `>` on two `Date` values. -/
def jsGtD (a b : Option Int) : Bool := jsLtD b a

/-- JS `>=` on two `Date` values. -/
def jsGeD (a b : Option Int) : Bool := jsLeD b a

/-- Source `new Date(Math.max(a.getTime(), b.getTime()))`: NaN-propagating. -/
def jsMaxD : Option Int → Option Int → Option Int
  | some a, some b => some (max a b)
  | _, _ => none

/-- Source `new Date(Math.min(a.getTime(), b.getTime()))`: NaN-propagating. -/
def jsMinD : Option Int → Option Int → Option Int
  | some a, some b => some (min a b)
  | _, _ => none

/-- Sort-comparator relation of `sort((a, b) => startA - startB)`: per the
ECMAScript spec a comparator evaluating to NaN is treated as 0, so events
with an Invalid start compare as equal to everything. -/
def startLe (a b : CalEvent) : Bool :=
  match a.startD, b.startD with
  | some x, some y => x ≤ y
  | _, _ => true

/-- Comparator relation for sorting by end time. -/
def endLe (a b : CalEvent) : Bool :=
  match a.endD, b.endD with
  | some x, some y => x ≤ y
  | _, _ => true

/-- Stable sort by start time (JS `Array.prototype.sort` is stable). -/
def sortByStart (l : List CalEvent) : List CalEvent :=
  List.insertionSort (fun a b => startLe a b = true) l

/-- Stable sort by end time. -/
def sortByEnd (l : List CalEvent) : List CalEvent :=
  List.insertionSort (fun a b => endLe a b = true) l

/-! ### The overlap engine (both call sites)

`route.ts` and the utils module each define `findOverlappingMeetings`;
the two bodies are identical except for the pair test:
`event2.startDate < event1.endDate` in `route.ts` versus
`event2.startDate <= event1.endDate` in utils.  The source first maps
each event to itself plus `startDate`/`endDate` `Date` fields; here the
event already carries those parsed fields, so the enrichment is the
identity. -/

structure OverlapPair where
  event1 : CalEvent
  event2 : CalEvent
  overlapStart : Option Int
  overlapEnd : Option Int
deriving Repr, DecidableEq

structure OverlapResult where
  overlaps : List OverlapPair
  hasOverlaps : Bool
deriving Repr, DecidableEq

/-- An overlap record: `overlapStart = max(starts)`, `overlapEnd = min(ends)`. -/
def mkOverlap (e1 e2 : CalEvent) : OverlapPair :=
  ⟨e1, e2, jsMaxD e1.startD e2.startD, jsMinD e1.endD e2.endD⟩

/-- The pair test at the two call sites: strict `<` in `route.ts`,
inclusive `<=` in the utils module. -/
def overlapCond (strict : Bool) (e1 e2 : CalEvent) : Bool :=
  if strict then jsLtD e2.startD e1.endD else jsLeD e2.startD e1.endD

/-- The double loop `for i, for j > i` over the sorted list, collecting
flagged pairs in loop order. -/
def overlapScan (strict : Bool) : List CalEvent → List OverlapPair
  | [] => []
  | e :: rest =>
    rest.filterMap
        (fun e2 => if overlapCond strict e e2 then some (mkOverlap e e2) else none)
      ++ overlapScan strict rest

/-- Common body of the two `findOverlappingMeetings` definitions. -/
def findOverlappingMeetingsWith (strict : Bool) (events : List CalEvent) : OverlapResult :=
  if events.length < 2 then ⟨[], false⟩
  else
    let ovs := overlapScan strict (sortByStart events)
    ⟨ovs, !ovs.isEmpty⟩

/-- Source `findOverlappingMeetings` of `route.ts` (strict `<` at the boundary). -/
def findOverlappingMeetingsRoute (events : List CalEvent) : OverlapResult :=
  findOverlappingMeetingsWith true events

/-- Source `findOverlappingMeetings` of the utils module (inclusive `<=`). -/
def findOverlappingMeetingsUtils (events : List CalEvent) : OverlapResult :=
  findOverlappingMeetingsWith false events

/-! ### The free-slot engine (both call sites) -/

/-- Source `setHours(18, 0, 0)` applied to `now`: hours, minutes and seconds are
set, the millisecond-of-second field of `now` is kept. -/
def endOfDay18 (now : Int) : Int :=
  dayStart now + 18 * msPerHour + (now % 1000)

/-- Source `setHours(9, 0, 0, 0)` applied to `now` (utils anchor). -/
def nineAmOf (now : Int) : Int := dayStart now + 9 * msPerHour

/-- Cursor advance of the free-slot loop: `if (eventEnd > lastEndTime)
lastEndTime = eventEnd` (false against an Invalid end date). -/
def advanceCursor (c : Int) (e : CalEvent) : Int :=
  match e.endD with
  | some t => if c < t then t else c
  | none => c

/-- Gap emission of the free-slot loop: a `(cursor, eventStart)` span
when the event starts more than 30 minutes after the cursor (never for
an Invalid start date, the NaN comparison being false). -/
def gapSlot (c : Int) (e : CalEvent) : List (Int × Int) :=
  match e.startD with
  | some s => if s - c > 1800000 then [(c, s)] else []
  | none => []

/-- The event walk shared by both `findFreeSlots` bodies; returns the
emitted spans and the final cursor. -/
def freeSlotsScan : List CalEvent → Int → List (Int × Int) × Int
  | [], cursor => ([], cursor)
  | e :: rest, cursor =>
    let r := freeSlotsScan rest (advanceCursor cursor e)
    (gapSlot cursor e ++ r.1, r.2)

/-- A span rendered as the source renders a slot:
`From <start 12h> to <end 12h>` (the instants involved are valid by the
guards in the loop, so `formatTime(d.toISOString())` is `format12`). -/
def formatSlot (p : Int × Int) : String :=
  "From " ++ format12 p.1 ++ " to " ++ format12 p.2

/-- Spans of `route.ts findFreeSlots` for a nonempty event list: the scan
is anchored at `now` and a trailing span up to 18:00 is appended when
more than 30 minutes remain. -/
def freeSlotSpansRoute (events : List CalEvent) (now : Int) : List (Int × Int) :=
  let r := freeSlotsScan (sortByStart events) now
  r.1 ++ (if endOfDay18 now - r.2 > 1800000 then [(r.2, endOfDay18 now)] else [])

/-- Source `findFreeSlots` of `route.ts`: returns `[]` for an empty event list,
otherwise the formatted spans anchored at `now`. -/
def findFreeSlotsRoute (events : List CalEvent) (now : Int) : List String :=
  if events.length == 0 then []
  else (freeSlotSpansRoute events now).map formatSlot

/-- Spans of the utils `findFreeSlots` for a nonempty event list: the
scan is anchored at 09:00 of the day of `now`, regardless of `now`. -/
def freeSlotSpansUtils (events : List CalEvent) (now : Int) : List (Int × Int) :=
  let r := freeSlotsScan (sortByStart events) (nineAmOf now)
  r.1 ++ (if endOfDay18 now - r.2 > 1800000 then [(r.2, endOfDay18 now)] else [])

/-- Source `findFreeSlots` of the utils module: an empty event list yields the
single slot 09:00–18:00 of the day of `now`. -/
def findFreeSlotsUtils (events : List CalEvent) (now : Int) : List String :=
  if events.length == 0 then [formatSlot (nineAmOf now, endOfDay18 now)]
  else (freeSlotSpansUtils events now).map formatSlot

/-! ### Lexical extraction -/

/-- The `commonWords` stop list of `extractKeywords`. -/
def commonWords : List String :=
  ["meeting", "meetings", "calendar", "schedule", "appointment", "appointments",
   "the", "a", "an", "in", "on", "at", "with", "and", "or", "for", "about",
   "have", "has", "had", "do", "does", "did", "is", "are", "was", "were", "be",
   "being", "been", "this", "that", "these", "those", "any", "all", "some",
   "how", "many", "much", "when", "where", "what", "who", "why", "which",
   "today", "tomorrow", "yesterday", "next", "previous", "week", "month", "day"]

/-- The `meetingTypes` vocabulary of `extractKeywords`. -/
def meetingTypesVocab : List String :=
  ["interview", "standup", "review", "planning", "retrospective", "demo",
   "presentation", "workshop", "1:1", "one-on-one", "sync", "catch-up",
   "check-in", "orientation", "training", "feedback"]

/-- Source `extractKeywords` of `route.ts`: lowercase, strip punctuation except
hyphens, split on whitespace; meeting-type matches (plain, +s, +ing) win;
otherwise words longer than 2 characters not in the stop list; as a last
resort the final word when it is longer than 2 characters. -/
def extractKeywords (query : String) : List String :=
  let words := jsSplitWs (jsRemovePunct (jsToLower query))
  let foundTypes := meetingTypesVocab.filter fun ty =>
    words.any fun w => w == ty || w == ty ++ "s" || w == ty ++ "ing"
  if !foundTypes.isEmpty then foundTypes
  else
    let extracted := words.filter fun w => w.length > 2 && !commonWords.contains w
    if extracted.isEmpty && words.length > 0 then
      match words.getLast? with
      | some lastWord => if lastWord.length > 2 then [lastWord] else extracted
      | none => extracted
    else extracted

/-- Source `extractPersonName` of `route.ts`: the bare regex capture, trimmed. -/
def extractPersonNameRoute (query : String) : Option String :=
  match personNameScan query with
  | some cap => some (jsTrim cap)
  | none => none

/-- Source `extractPersonName` of the utils module: two hard-coded exact-query
special cases ("for test compatibility"), then the same regex capture. -/
def extractPersonNameUtils (query : String) : Option String :=
  if query == "Do I have a meeting with John today?" then some "John"
  else if query == "Meetings with John Smith this week" then some "John Smith"
  else extractPersonNameRoute query

/-- Case-insensitive substring test of a keyword against an optional
field (`field?.toLowerCase().includes(kw)`; an absent field is falsy). -/
def optFieldHas (field : Option String) (kw : String) : Bool :=
  match field with
  | some f => strIncludes (jsToLower f) kw
  | none => false

/-- Source `findRelatedEvents`: keyword-filter over title, description and
location; an empty keyword list yields no events. -/
def findRelatedEvents (query : String) (events : List CalEvent) : List CalEvent :=
  let normalizedQuery := jsTrim (jsToLower query)
  let keywords := extractKeywords normalizedQuery
  if keywords.isEmpty then []
  else
    events.filter fun e => keywords.any fun kw =>
      strIncludes (jsToLower e.title) kw || optFieldHas e.description kw ||
        optFieldHas e.location kw

/-! ### Throwing operations

`toISOString()` on an Invalid Date raises a `RangeError`; every event
filter keyed on `toISOString().split('T')[0]` can therefore throw when an
event's date string does not parse.  These are the only throwing
operations reachable from `processCalendarQuery`. -/

inductive JsError where
  /-- `RangeError: Invalid time value` from `toISOString()` -/
  | invalidTime
deriving Repr, DecidableEq

/-- Source `d.toISOString().split('T')[0]`: throws on an Invalid Date. -/
def isoDayKeyE (d : Option Int) : Except JsError String :=
  match d with
  | some t => Except.ok (isoDayKey t)
  | none => Except.error JsError.invalidTime

/-- Source `formatTime(d.toISOString())`: throws on an Invalid Date, otherwise
renders the 12-hour clock time. -/
def formatTimeIsoE (d : Option Int) : Except JsError String :=
  match d with
  | some t => Except.ok (format12 t)
  | none => Except.error JsError.invalidTime

/-- Source `Array.prototype.filter` with a predicate that can throw. -/
def filterEM (p : CalEvent → Except JsError Bool) : List CalEvent → Except JsError (List CalEvent)
  | [] => Except.ok []
  | a :: l => do
    let b ← p a
    let r ← filterEM p l
    Except.ok (if b then a :: r else r)

/-- Event filter on the ISO day key of the start date (throws on an
Invalid start date). -/
def isoStartEq (key : String) (e : CalEvent) : Except JsError Bool :=
  (isoDayKeyE e.startD).map (· == key)

/-- Source `Array.prototype.map` with a callback that can throw. -/
def mapEM (f : CalEvent → Except JsError String) : List CalEvent → Except JsError (List String)
  | [] => Except.ok []
  | a :: l => do
    let b ← f a
    let r ← mapEM f l
    Except.ok (b :: r)

/-! ### The rule-based engine `processCalendarQuery`

Transcribed branch by branch; the mutable `answer`/`relatedEvents`
locals become the returned pair, and the single final `return` applies
the `relatedEvents.length > 0 ? relatedEvents : undefined` guard. -/

/-- Singular/plural suffix `length === 1 ? '' : 's'`. -/
def plural (n : Nat) : String := if n == 1 then "" else "s"

/-- The count-only trigger shared by several branches. -/
def isCountQuery (nq : String) : Bool :=
  strIncludes nq "how many" || strIncludes nq "number of"

/-- Source `formatMeetingsList`: newline-led bullet list of titles and times. -/
def formatMeetingsList (events : List CalEvent) : String :=
  "\n" ++ String.intercalate "\n" (events.map fun e =>
    "• **" ++ e.title ++ "** from " ++ formatTimeJS e.startD ++ " to " ++ formatTimeJS e.endD)

/-- The today branch: filter on the raw start string containing today's
ISO day key. -/
def todayBranch (nq : String) (events : List CalEvent) (todayStr : String) :
    String × List CalEvent :=
  let relatedEvents := events.filter fun e => strIncludes e.start todayStr
  if relatedEvents.isEmpty then ("You have no meetings scheduled for today.", relatedEvents)
  else if isCountQuery nq then
    ("You have " ++ toString relatedEvents.length ++ " meeting" ++ plural relatedEvents.length
      ++ " today. Would you like me to list them?", relatedEvents)
  else
    ("You have " ++ toString relatedEvents.length ++ " meeting" ++ plural relatedEvents.length
      ++ " today:" ++ formatMeetingsList relatedEvents, relatedEvents)

/-- The tomorrow branch. -/
def tomorrowBranch (nq : String) (events : List CalEvent) (tomorrowStr : String) :
    String × List CalEvent :=
  let relatedEvents := events.filter fun e => strIncludes e.start tomorrowStr
  if relatedEvents.isEmpty then ("You have no meetings scheduled for tomorrow.", relatedEvents)
  else if isCountQuery nq then
    ("You have " ++ toString relatedEvents.length ++ " meeting" ++ plural relatedEvents.length
      ++ " tomorrow. Would you like me to list them?", relatedEvents)
  else
    ("You have " ++ toString relatedEvents.length ++ " meeting" ++ plural relatedEvents.length
      ++ " tomorrow:" ++ formatMeetingsList relatedEvents, relatedEvents)

/-- Source `new Date(year-mm-dd)` built from captured digit strings (after
`padStart(2, '0')`): a date-only ISO string is Invalid unless the month
and day are in calendar range. -/
def jsParseYMDStrings (y m d : String) : Option Int :=
  let yn : Int := digitsToNat y
  let mn : Int := digitsToNat m
  let dn : Int := digitsToNat d
  if 1 ≤ mn && mn ≤ 12 && 1 ≤ dn && dn ≤ daysInMonth yn mn then
    some (daysFromCivil yn mn dn * msPerDay)
  else none

/-- The target date parsed from the query in the explicit-date branches:
DD/MM/YYYY is tried first, then YYYY-MM-DD. -/
def queryTargetDate (nq : String) : Option Int :=
  match scanDMY nq with
  | some g => jsParseYMDStrings g.2.2 g.2.1 g.1
  | none =>
    match scanYMD nq with
    | some g => jsParseYMDStrings g.1 g.2.1 g.2.2
    | none => none

/-- The explicit-date branch: filter on the ISO day key of the parsed
start date (throws on an Invalid event start date), sorted by start. -/
def dateBranch (nq : String) (events : List CalEvent) (related0 : List CalEvent) :
    Except JsError (String × List CalEvent) :=
  match queryTargetDate nq with
  | some td => do
    let targetDateStr := isoDayKey td
    let filtered ← filterEM (isoStartEq targetDateStr) events
    let relatedEvents := sortByStart filtered
    let formattedDate := nameAt weekdayNamesCap (dayOfWeekIdx td) ++ ", "
      ++ nameAt monthNames (monthOf td - 1) ++ " " ++ toString (dayOfMonthOf td)
      ++ ", " ++ toString (yearOf td)
    if relatedEvents.isEmpty then
      Except.ok ("You have no meetings scheduled for " ++ formattedDate ++ ".", relatedEvents)
    else if isCountQuery nq then
      Except.ok ("You have " ++ toString relatedEvents.length ++ " meeting"
        ++ plural relatedEvents.length ++ " on " ++ formattedDate
        ++ ". Would you like me to list them?", relatedEvents)
    else
      Except.ok ("You have " ++ toString relatedEvents.length ++ " meeting"
        ++ plural relatedEvents.length ++ " on " ++ formattedDate ++ ":"
        ++ formatMeetingsList relatedEvents, relatedEvents)
  | none =>
    Except.ok ("I couldn't understand the date format. Please try using DD/MM/YYYY or YYYY-MM-DD format.",
      related0)

/-- The weekday branch: resolve the target day (roll a week forward when
the day already passed or "next" appears), then filter by ISO day key.
The source's unused capitalised `formattedDate` local is omitted. -/
def weekdayBranch (nq : String) (matchedWeekday : Nat) (isNextWeek : Bool)
    (events : List CalEvent) (now : Int) : Except JsError (String × List CalEvent) := do
  let daysToAdd0 : Int := (matchedWeekday : Int) - dayOfWeekIdx now
  let daysToAdd := if daysToAdd0 ≤ 0 || isNextWeek then daysToAdd0 + 7 else daysToAdd0
  let targetDateStr := isoDayKey (now + daysToAdd * msPerDay)
  let filtered ← filterEM (isoStartEq targetDateStr) events
  let relatedEvents := sortByStart filtered
  let wdName := weekdayNamesLower.getD matchedWeekday ""
  if relatedEvents.isEmpty then
    Except.ok ("You have no meetings scheduled for " ++ (if isNextWeek then "next" else "")
      ++ " " ++ wdName ++ ".", relatedEvents)
  else if isCountQuery nq then
    Except.ok ("You have " ++ toString relatedEvents.length ++ " meeting"
      ++ plural relatedEvents.length ++ " on " ++ (if isNextWeek then "next" else "")
      ++ " " ++ wdName ++ ". Would you like me to list them?", relatedEvents)
  else
    Except.ok ("You have " ++ toString relatedEvents.length ++ " meeting"
      ++ plural relatedEvents.length ++ " on " ++ (if isNextWeek then "next" else "")
      ++ " " ++ wdName ++ ":" ++ formatMeetingsList relatedEvents, relatedEvents)

/-- The person branch: a falsy (empty) extracted name falls back to the
"please specify" prompt. -/
def personBranch (nq : String) (events : List CalEvent) (related0 : List CalEvent) :
    String × List CalEvent :=
  match extractPersonNameRoute nq with
  | some person =>
    if person != "" then
      let relatedEvents := events.filter fun e =>
        strIncludes (jsToLower e.title) (jsToLower person)
          || optFieldHas e.description (jsToLower person)
      if relatedEvents.isEmpty then
        ("I couldn't find any meetings with " ++ person ++ ".", relatedEvents)
      else if isCountQuery nq then
        ("You have " ++ toString relatedEvents.length ++ " meeting"
          ++ plural relatedEvents.length ++ " with " ++ person
          ++ ". Would you like me to list them?", relatedEvents)
      else
        ("You have " ++ toString relatedEvents.length ++ " meeting"
          ++ plural relatedEvents.length ++ " with " ++ person ++ ":"
          ++ formatMeetingsList relatedEvents, relatedEvents)
    else ("Please specify the person's name you're looking for.", related0)
  | none => ("Please specify the person's name you're looking for.", related0)

/-- The next-meeting branch; a meeting link that is present and nonempty
appends a note. -/
def nextMeetingBranch (events : List CalEvent) (now : Int) (related0 : List CalEvent) :
    String × List CalEvent :=
  let upcomingEvents := sortByStart (events.filter fun e => jsGtD e.startD (some now))
  match upcomingEvents with
  | [] => ("You have no upcoming meetings scheduled.", related0)
  | nextEvent :: _ =>
    let answer := "Your next meeting is **" ++ nextEvent.title ++ "** on "
      ++ formatDateLongJS nextEvent.startD ++ " from " ++ formatTimeJS nextEvent.startD
      ++ " to " ++ formatTimeJS nextEvent.endD ++ "."
    let answer := answer ++
      (match nextEvent.meetingLink with
       | some ml => if ml != "" then "\n\nThis meeting has an online meeting link." else ""
       | none => "")
    (answer, [nextEvent])

/-- One "Conflict N" paragraph of the overlap answer. -/
def conflictPara (i : Nat) (ov : OverlapPair) : String :=
  "Conflict " ++ toString (i + 1) ++ ":\n"
    ++ "• **" ++ ov.event1.title ++ "** from " ++ formatTimeJS ov.event1.startD
    ++ " to " ++ formatTimeJS ov.event1.endD ++ "\n"
    ++ "• **" ++ ov.event2.title ++ "** from " ++ formatTimeJS ov.event2.startD
    ++ " to " ++ formatTimeJS ov.event2.endD ++ "\n"
    ++ "These meetings overlap between " ++ formatTimeJS ov.overlapStart
    ++ " and " ++ formatTimeJS ov.overlapEnd ++ ".\n\n"

/-- The overlap branch: scope to today/tomorrow (throwing filters) or to
all upcoming events, then run the strict-`<` overlap engine. -/
def overlapBranch (nq : String) (events : List CalEvent) (now : Int)
    (related0 : List CalEvent) : Except JsError (String × List CalEvent) := do
  let targetEvents ←
    if strIncludes nq "today" then filterEM (isoStartEq (isoDayKey now)) events
    else if strIncludes nq "tomorrow" then
      filterEM (isoStartEq (isoDayKey (now + msPerDay))) events
    else Except.ok (events.filter fun e => jsGeD e.startD (some now))
  let res := findOverlappingMeetingsRoute targetEvents
  if !res.hasOverlaps then
    let answer :=
      if strIncludes nq "today" then "You don't have any overlapping meetings today."
      else if strIncludes nq "tomorrow" then "You don't have any overlapping meetings tomorrow."
      else "You don't have any overlapping meetings in your schedule."
    Except.ok (answer, related0)
  else
    let timeframe :=
      if strIncludes nq "today" then "today"
      else if strIncludes nq "tomorrow" then "tomorrow"
      else "in your schedule"
    let header := "Yes, you have " ++ toString res.overlaps.length ++ " overlapping meeting "
      ++ (if res.overlaps.length == 1 then "pair" else "pairs") ++ " " ++ timeframe ++ ":\n\n"
    let body := String.join (res.overlaps.enum.map fun p => conflictPara p.1 p.2)
    let relatedEvents := res.overlaps.flatMap fun ov => [ov.event1, ov.event2]
    Except.ok (header ++ body, relatedEvents)

/-- Source `parseTimeFromMatch`: 12-hour fields to an instant on the day of
`now` (`setHours` zeroes seconds and milliseconds here), plus the
display string rebuilt from the raw captures. -/
def parseTimeFromMatch (g : String × Option String × String) (now : Int) : Int × String :=
  let hour : Int := digitsToNat g.1
  let minute : Int := (match g.2.1 with | some m => digitsToNat m | none => 0)
  let ap := g.2.2
  let isPM := ap == "pm" && hour < 12
  let queryHour := if isPM then hour + 12 else (if hour == 12 && ap == "am" then 0 else hour)
  (dayStart now + queryHour * msPerHour + minute * msPerMinute,
   g.1 ++ (match g.2.1 with | some m => ":" ++ m | none => "") ++ ap)

/-- The availability branch, sub-branching on "after <time>",
"before <time>", a bare clock time, and the generic free-slot summary. -/
def availabilityBranch (nq : String) (events : List CalEvent) (now : Int)
    (todayStr : String) (related0 : List CalEvent) :
    Except JsError (String × List CalEvent) :=
  match scanAfterTime nq with
  | some g =>
    let pt := parseTimeFromMatch g now
    let afterTime := if pt.1 < now then pt.1 + 12 * msPerHour else pt.1
    do
      let filtered ← filterEM (fun e =>
        match e.startD with
        | some s => Except.ok (isoDayKey s == todayStr && decide (afterTime ≤ s))
        | none => Except.error JsError.invalidTime) events
      let laterEvents := sortByStart filtered
      match laterEvents with
      | [] => Except.ok ("Yes, you're free after " ++ pt.2 ++ ".", related0)
      | nextEvent :: _ =>
        match nextEvent.startD with
        | some s =>
          if s - afterTime > 1800000 then
            Except.ok ("Yes, you're free after " ++ pt.2 ++ " until " ++ format12 s ++ ".",
              related0)
          else
            Except.ok ("No, you have \"" ++ nextEvent.title ++ "\" at " ++ format12 s ++ ".",
              related0)
        | none => Except.error JsError.invalidTime
  | none =>
  match scanBeforeTime nq with
  | some g =>
    let pt := parseTimeFromMatch g now
    let beforeTime := pt.1
    do
      let filtered ← filterEM (fun e =>
        match e.startD with
        | some s =>
          Except.ok (isoDayKey s == todayStr && decide (s < beforeTime)
            && jsGtD e.endD (some now))
        | none => Except.error JsError.invalidTime) events
      let earlierEvents := sortByEnd filtered
      match earlierEvents.getLast? with
      | none =>
        if beforeTime < now then Except.ok ("That time has already passed.", related0)
        else Except.ok ("Yes, you're free before " ++ pt.2 ++ ".", related0)
      | some lastEvent =>
        let cond :=
          (match lastEvent.endD with
           | some lend => decide (beforeTime - lend < 1800000)
           | none => false)
          || (jsLeD lastEvent.startD (some now) && jsGtD lastEvent.endD (some now))
        do
          let t ← formatTimeIsoE lastEvent.endD
          if cond then
            Except.ok ("No, you have \"" ++ lastEvent.title ++ "\" until " ++ t ++ ".", related0)
          else
            Except.ok ("Yes, you're free from " ++ t ++ " until " ++ pt.2 ++ ".", related0)
  | none =>
  match scanTime nq with
  | some g =>
    let pt := parseTimeFromMatch g now
    if pt.1 < now then Except.ok ("That time has already passed today.", related0)
    else do
      let overlapping ← filterEM (fun e =>
        match e.startD with
        | some s =>
          Except.ok (isoDayKey s == todayStr && decide (s ≤ pt.1)
            && jsGtD e.endD (some pt.1))
        | none => Except.error JsError.invalidTime) events
      match overlapping with
      | [] => Except.ok ("Yes, you're free at " ++ pt.2 ++ ".", related0)
      | ev :: _ => do
        let st ← formatTimeIsoE ev.startD
        let en ← formatTimeIsoE ev.endD
        Except.ok ("No, you have \"" ++ ev.title ++ "\" from " ++ st ++ " to " ++ en ++ ".",
          related0)
  | none =>
    let todayEvents := sortByStart (events.filter fun e =>
      strIncludes e.start todayStr && jsGtD e.endD (some now))
    if todayEvents.isEmpty then Except.ok ("You have no more meetings today.", todayEvents)
    else
      let freeSlots := findFreeSlotsRoute todayEvents now
      if strIncludes nq "busy" || strIncludes nq "meeting" then do
        let lines ← mapEM (fun e => do
          let st ← formatTimeIsoE e.startD
          let en ← formatTimeIsoE e.endD
          pure ("• **" ++ e.title ++ "** from " ++ st ++ " to " ++ en)) todayEvents
        if !freeSlots.isEmpty then
          Except.ok ("Your busy periods today:" ++ "\n" ++ String.intercalate "\n" lines,
            todayEvents)
        else
          Except.ok ("No free time remaining today." ++ "\n\nYour schedule:" ++ "\n"
            ++ String.intercalate "\n" lines, todayEvents)
      else if !freeSlots.isEmpty then
        if strIncludes nq "when" then
          Except.ok ("Free times today: "
            ++ String.intercalate " and " (freeSlots.map fun slot => jsReplaceFirst slot "From " "")
            ++ ".", todayEvents)
        else Except.ok ("Yes, you have free time today.", todayEvents)
      else Except.ok ("No free time remaining today.", todayEvents)

/-- The agenda branch: events of the target day partitioned by whether a
description is present, non-blank and not the placeholder. -/
def agendaBranch (nq : String) (events : List CalEvent) (now : Int)
    (related0 : List CalEvent) : Except JsError (String × List CalEvent) := do
  let target :=
    if strIncludes nq "tomorrow" then (isoDayKey (now + msPerDay), "tomorrow")
    else if strIncludes nq "yesterday" then (isoDayKey (now - msPerDay), "yesterday")
    else (isoDayKey now, "today")
  let filtered ← filterEM (isoStartEq target.1) events
  let dateEvents := sortByStart filtered
  let lookingForNoAgenda := strIncludes nq "no agenda" || strIncludes nq "without agenda"
    || strIncludes nq "missing agenda" || strIncludes nq "no description"
    || strIncludes nq "without description"
  let agendaLine := fun (e : CalEvent) =>
    "• **" ++ e.title ++ "** from " ++ formatTimeJS e.startD ++ " to " ++ formatTimeJS e.endD
  if lookingForNoAgenda then
    let eventsWithoutAgenda := dateEvents.filter fun e =>
      match e.description with
      | none => true
      | some d => jsTrim d == "" || d == "No description available"
    if eventsWithoutAgenda.isEmpty then
      Except.ok ("No meetings " ++ target.2 ++ " are missing agenda or descriptions.", related0)
    else
      let n := eventsWithoutAgenda.length
      Except.ok (toString n ++ " meeting" ++ plural n ++ " " ++ target.2 ++ " "
        ++ (if n == 1 then "has" else "have") ++ " no agenda:" ++ "\n"
        ++ String.intercalate "\n" (eventsWithoutAgenda.map agendaLine), eventsWithoutAgenda)
  else
    let eventsWithAgenda := dateEvents.filter fun e =>
      match e.description with
      | some d => !(jsTrim d == "") && d != "No description available"
      | none => false
    if eventsWithAgenda.isEmpty then
      Except.ok ("No meetings " ++ target.2 ++ " have agenda or descriptions.", related0)
    else
      let n := eventsWithAgenda.length
      Except.ok (toString n ++ " meeting" ++ plural n ++ " " ++ target.2 ++ " "
        ++ (if n == 1 then "has" else "have") ++ " an agenda:" ++ "\n"
        ++ String.intercalate "\n" (eventsWithAgenda.map agendaLine), eventsWithAgenda)

/-- Source `setDate(1)` on a midnight instant: first of its month. -/
def firstOfMonth (t : Int) : Int :=
  let c := civilFromDays ((t / msPerDay))
  daysFromCivil c.1 c.2.1 1 * msPerDay

/-- Source `setMonth(getMonth() + k)`: same day-of-month `k` months later, with
JS field normalisation (a too-large day overflows into the next month). -/
def addMonthsJS (t : Int) (k : Int) : Int :=
  let days := (t / msPerDay)
  let tod := t - days * msPerDay
  let c := civilFromDays days
  let m0 := c.2.1 - 1 + k
  daysFromCivil (c.1 + (m0 / 12)) ((m0 % 12) + 1) c.2.2 * msPerDay + tod

/-- Source `replace(/ing$/, '')`. -/
def stripIngSuffix (s : String) : String :=
  if "gni".toList.isPrefixOf s.toList.reverse then String.mk (s.toList.take (s.toList.length - 3))
  else s

/-- Source `replace(/s$/, '')`. -/
def stripSSuffix (s : String) : String :=
  if "s".toList.isPrefixOf s.toList.reverse then String.mk (s.toList.take (s.toList.length - 1))
  else s

/-- The meeting type extracted in the meeting-type branch. -/
def queryMeetingType (nq : String) : String :=
  if strIncludes nq "interview" then "interview"
  else if strIncludes nq "1:1" || strIncludes nq "one on one" then "1:1"
  else if strIncludes nq "standup" then "standup"
  else
    match scanHowManyType nq with
    | some cap => jsTrim cap
    | none => ""

/-- The time window of the meeting-type branch, with its description. -/
def meetingTypeWindow (nq : String) (now : Int) : Int × Int × String :=
  let startOfToday := dayStart now
  let dayOfWeek := dayOfWeekIdx now
  if strIncludes nq "this week" then
    let sd := startOfToday - dayOfWeek * msPerDay
    (sd, sd + 7 * msPerDay, "this week")
  else if strIncludes nq "next week" then
    let sd := startOfToday + (7 - dayOfWeek) * msPerDay
    (sd, sd + 7 * msPerDay, "next week")
  else if strIncludes nq "tomorrow" then
    (startOfToday + msPerDay, startOfToday + 2 * msPerDay, "tomorrow")
  else if strIncludes nq "today" then
    (startOfToday, startOfToday + msPerDay, "today")
  else if strIncludes nq "month" then
    let fm := firstOfMonth startOfToday
    (fm, addMonthsJS fm 1, "this month")
  else
    (startOfToday, addMonthsJS startOfToday 3, "in the next 3 months")

/-- The weekday name shown in a meeting-type bullet
(`dayNames[eventDate.getDay()]`, "undefined" on an Invalid date). -/
def bulletDayName (d : Option Int) : String :=
  match d with
  | some t => nameAt weekdayNamesCap (dayOfWeekIdx t)
  | none => "undefined"

/-- The events matched by the meeting-type branch: morphological
variants of the type against title and description, inside the resolved
time window, sorted by start. -/
def meetingTypeMatches (nq : String) (events : List CalEvent) (now : Int) : List CalEvent :=
  let meetingType := queryMeetingType nq
  let w := meetingTypeWindow nq now
  let variations := [meetingType, meetingType ++ "s", meetingType ++ "ing",
    stripIngSuffix meetingType, stripSSuffix meetingType]
  sortByStart (events.filter fun e =>
    jsGeD e.startD (some w.1) && jsLtD e.startD (some w.2.1)
      && variations.any fun v =>
           strIncludes (jsToLower e.title) v
             || strIncludes (jsToLower (e.description.getD "")) v)

/-- The meeting-type branch.  This branch has no count-only
short-circuit: a nonempty match always emits the itemized bullet list. -/
def meetingTypeBranch (nq : String) (events : List CalEvent) (now : Int)
    (related0 : List CalEvent) : String × List CalEvent :=
  let meetingType := queryMeetingType nq
  if meetingType == "" then
    ("I'm not sure what type of meetings you're looking for. Could you specify?", related0)
  else
    let w := meetingTypeWindow nq now
    let matchingEvents := meetingTypeMatches nq events now
    if matchingEvents.isEmpty then
      ("You don't have any " ++ meetingType ++ " meetings " ++ w.2.2 ++ ".", related0)
    else
      let n := matchingEvents.length
      ("You have " ++ toString n ++ " " ++ meetingType ++ " meeting" ++ plural n
         ++ " " ++ w.2.2 ++ ":" ++ "\n"
         ++ String.intercalate "\n" (matchingEvents.map fun e =>
              "• **" ++ e.title ++ "** on " ++ bulletDayName e.startD ++ " from "
                ++ formatTimeJS e.startD ++ " to " ++ formatTimeJS e.endD),
       matchingEvents)

/-- The find-meeting branch: keyword filter over title, description and
location. -/
def findMeetingBranch (nq : String) (events : List CalEvent) (related0 : List CalEvent) :
    String × List CalEvent :=
  let keywords := extractKeywords nq
  if !keywords.isEmpty then
    let relatedEvents := events.filter fun e => keywords.any fun kw =>
      strIncludes (jsToLower e.title) kw || optFieldHas e.description kw
        || optFieldHas e.location kw
    if relatedEvents.isEmpty then
      ("I couldn't find any meetings matching your search terms.", relatedEvents)
    else if isCountQuery nq then
      ("I found " ++ toString relatedEvents.length ++ " meeting" ++ plural relatedEvents.length
        ++ " matching your search. Would you like me to list them?", relatedEvents)
    else
      ("I found " ++ toString relatedEvents.length ++ " meeting" ++ plural relatedEvents.length
        ++ " matching your search:" ++ formatMeetingsList relatedEvents, relatedEvents)
  else ("Please provide some keywords to search for in your meetings.", related0)

/-- The default branch: the next three upcoming events (the
`length > 3` continuation prompt of the source is dead code, the list
having already been sliced to three). -/
def defaultBranch (events : List CalEvent) (now : Int) (related0 : List CalEvent) :
    String × List CalEvent :=
  let upcomingEvents := (sortByStart (events.filter fun e => jsGtD e.startD (some now))).take 3
  if upcomingEvents.isEmpty then ("You have no upcoming meetings scheduled.", related0)
  else
    ("You have " ++ toString upcomingEvents.length
       ++ " upcoming meetings. Here are the next few:"
       ++ formatMeetingsList (upcomingEvents.take 3), upcomingEvents)

/-- The branch conditions of `processCalendarQuery` in source order.
All the `new Date()` calls of one invocation are modelled by the single
instant `now`. -/
def dispatchCore (normalizedQuery : String) (events : List CalEvent) (now : Int)
    (related0 : List CalEvent) (todayStr tomorrowStr : String) :
    Except JsError (String × List CalEvent) :=
  if strIncludes normalizedQuery "today" || strIncludes normalizedQuery "meetings today" then
    Except.ok (todayBranch normalizedQuery events todayStr)
  else if strIncludes normalizedQuery "tomorrow"
      || strIncludes normalizedQuery "meetings tomorrow" then
    Except.ok (tomorrowBranch normalizedQuery events tomorrowStr)
  else if (scanDMY normalizedQuery).isSome || (scanYMD normalizedQuery).isSome then
    dateBranch normalizedQuery events related0
  else
    match firstWeekdayIn normalizedQuery with
    | some matchedWeekday =>
      weekdayBranch normalizedQuery matchedWeekday (strIncludes normalizedQuery "next")
        events now
    | none =>
      if strIncludes normalizedQuery "meeting with"
          || strIncludes normalizedQuery "meetings with" then
        Except.ok (personBranch normalizedQuery events related0)
      else if strIncludes normalizedQuery "next meeting" then
        Except.ok (nextMeetingBranch events now related0)
      else if strIncludes normalizedQuery "overlap" || strIncludes normalizedQuery "conflict"
          || strIncludes normalizedQuery "collision"
          || strIncludes normalizedQuery "double book" then
        overlapBranch normalizedQuery events now related0
      else if strIncludes normalizedQuery "free time" || strIncludes normalizedQuery "available"
          || strIncludes normalizedQuery "busy" || hasFreeAtDigit normalizedQuery then
        availabilityBranch normalizedQuery events now todayStr related0
      else if strIncludes normalizedQuery "agenda" || strIncludes normalizedQuery "description"
          || strIncludes normalizedQuery "details" || strIncludes normalizedQuery "notes" then
        agendaBranch normalizedQuery events now related0
      else if strIncludes normalizedQuery "interview" || strIncludes normalizedQuery "1:1"
          || strIncludes normalizedQuery "one on one" || strIncludes normalizedQuery "standup"
          || (strIncludes normalizedQuery "how many"
              && (scanHowManyType normalizedQuery).isSome) then
        Except.ok (meetingTypeBranch normalizedQuery events now related0)
      else if strIncludes normalizedQuery "find meeting"
          || strIncludes normalizedQuery "search for meeting" then
        Except.ok (findMeetingBranch normalizedQuery events related0)
      else
        Except.ok (defaultBranch events now related0)

/-- The dispatcher of `processCalendarQuery` applied to the computed
locals: the normalized query, the initial keyword-derived
`relatedEvents`, and the ISO day keys of today and tomorrow. -/
def processCalendarQueryCore (query : String) (events : List CalEvent) (now : Int) :
    Except JsError (String × List CalEvent) :=
  let normalizedQuery := jsTrim (jsToLower query)
  dispatchCore normalizedQuery events now (findRelatedEvents normalizedQuery events)
    (isoDayKey now) (isoDayKey (now + msPerDay))

/-- The result shape `{ answer, relatedEvents? }`. -/
structure QueryResult where
  answer : String
  relatedEvents : Option (List CalEvent)
deriving Repr, DecidableEq

/-- The single final return of `processCalendarQuery`:
`relatedEvents.length > 0 ? relatedEvents : undefined`. -/
def wrapResult (pr : String × List CalEvent) : QueryResult :=
  ⟨pr.1, if pr.2.length > 0 then some pr.2 else none⟩

/-- Source `processCalendarQuery` (the rule-based fallback engine). -/
def processCalendarQuery (query : String) (events : List CalEvent) (now : Int) :
    Except JsError QueryResult :=
  (processCalendarQueryCore query events now).map wrapResult

/-! ### The Claude-path event highlight selector and result builder -/

/-- Source `extractPotentialPersons`: the first `with <word> [<word>]` capture,
trimmed, or no candidates. -/
def extractPotentialPersons (query : String) : List String :=
  match wordPairScan query with
  | some cap => [jsTrim cap]
  | none => []

/-- The highlight selector of `getClaudeResponse` (lines 424-540): a
reduced intent scan over the lowercased (untrimmed) query; every filter
here tests the raw start string, so it never throws. -/
def claudeRelatedEvents (query : String) (events : List CalEvent) (now : Int) :
    List CalEvent :=
  let normalizedQuery := jsToLower query
  let todayStr := isoDayKey now
  let tomorrowStr := isoDayKey (now + msPerDay)
  if strIncludes normalizedQuery "today" then
    events.filter fun e => strIncludes e.start todayStr
  else if strIncludes normalizedQuery "tomorrow" then
    events.filter fun e => strIncludes e.start tomorrowStr
  else if (scanDMY normalizedQuery).isSome || (scanYMD normalizedQuery).isSome then
    match queryTargetDate normalizedQuery with
    | some td => events.filter fun e => strIncludes e.start (isoDayKey td)
    | none => []
  else
    match firstWeekdayIn normalizedQuery with
    | some matchedWeekday =>
      let isNextWeek := strIncludes normalizedQuery "next"
      let daysToAdd0 : Int := (matchedWeekday : Int) - dayOfWeekIdx now
      let daysToAdd := if daysToAdd0 ≤ 0 || isNextWeek then daysToAdd0 + 7 else daysToAdd0
      events.filter fun e => strIncludes e.start (isoDayKey (now + daysToAdd * msPerDay))
    | none =>
      if strIncludes normalizedQuery "next meeting"
          || strIncludes normalizedQuery "next appointment" then
        match sortByStart (events.filter fun e => jsGtD e.startD (some now)) with
        | nextEvent :: _ => [nextEvent]
        | [] => []
      else if strIncludes normalizedQuery "with" then
        match extractPotentialPersons normalizedQuery with
        | [] => []
        | persons => events.filter fun e => persons.any fun p =>
            strIncludes (jsToLower e.title) (jsToLower p)
              || optFieldHas e.description (jsToLower p)
      else
        let keywords := extractKeywords normalizedQuery
        if keywords.isEmpty then []
        else events.filter fun e => keywords.any fun kw =>
          strIncludes (jsToLower e.title) kw || optFieldHas e.description kw
            || optFieldHas e.location kw

/-- The Claude-path result builder (lines 542-545): the model answer is
external input; `relatedEvents` is present only when nonempty. -/
def getClaudeResult (aiResponse : String) (query : String) (events : List CalEvent)
    (now : Int) : QueryResult :=
  let relatedEvents := claudeRelatedEvents query events now
  ⟨aiResponse, if relatedEvents.length > 0 then some relatedEvents else none⟩

/-! ### Concrete inputs used in the theorems -/

/-- A basic valid event on 2025-04-21 (a Monday), given by clock times. -/
def mkEv (id title : String) (h1 m1 h2 m2 : Int) : CalEvent :=
  { id := id, title := title,
    start := "2025-04-21T" ++ pad2 h1 ++ ":" ++ pad2 m1 ++ ":00.000Z",
    «end» := "2025-04-21T" ++ pad2 h2 ++ ":" ++ pad2 m2 ++ ":00.000Z",
    startD := some (mkUtc 2025 4 21 h1 m1), endD := some (mkUtc 2025 4 21 h2 m2),
    location := none, description := none, source := "google",
    allDay := none, meetingLink := none }

/-- Standup 10:00–10:30 on 2025-04-21. -/
def evStandup : CalEvent := mkEv "1" "Standup" 10 0 10 30

/-- Review 10:15–11:00 on 2025-04-21. -/
def evReview : CalEvent := mkEv "2" "Review" 10 15 11 0

/-- 2025-04-21 08:00 UTC, the reference "now" of the scenario theorems. -/
def now0421 : Int := mkUtc 2025 4 21 8 0

/-- An event whose start and end strings do not parse
(`new Date` yields an Invalid Date). -/
def evBadDates : CalEvent :=
  { id := "bad", title := "Broken", start := "not-a-date", «end» := "not-a-date",
    startD := none, endD := none, location := none, description := none,
    source := "google", allDay := none, meetingLink := none }

/-- A zero-duration event at 10:00 (end = start, a well-formed instant). -/
def evZeroLen : CalEvent := mkEv "z" "Zero" 10 0 10 0

/-- An event 10:00–10:10 sharing its start with `evZeroLen`. -/
def evTenMin : CalEvent := mkEv "t" "Ten" 10 0 10 10

/-- The answer of the today branch for the two-event overlap scenario. -/
def todayListingAnswer : String :=
  "You have 2 meetings today:\n• **Standup** from 10:00 AM to 10:30 AM\n• **Review** from 10:15 AM to 11:00 AM"

/-- An event on 2025-04-21 used against a "now" of 2025-04-10, for the
dispatch-priority counterexample. -/
def evSync : CalEvent := mkEv "3" "Sync" 10 0 11 0

/-- 2025-04-10 12:00 UTC. -/
def now0410 : Int := mkUtc 2025 4 10 12 0

/-- An interview event at 13:00–14:00 on 2025-04-21. -/
def evInterview : CalEvent := mkEv "4" "Interview with Alice" 13 0 14 0

/-- The meeting-type branch answer for the how-many query: it carries
the itemized bullet list, not a count-only sentence. -/
def interviewListingAnswer : String :=
  "You have 1 interview meeting in the next 3 months:\n• **Interview with Alice** on Monday from 1:00 PM to 2:00 PM"

/-- The overlap-branch answer for the same events when the query avoids
the word "today". -/
def overlapListingAnswer : String :=
  "Yes, you have 1 overlapping meeting pair in your schedule:\n\nConflict 1:\n• **Standup** from 10:00 AM to 10:30 AM\n• **Review** from 10:15 AM to 11:00 AM\nThese meetings overlap between 10:15 AM and 10:30 AM.\n\n"

/-- An event 09:00–10:00 whose end is exactly the start of `evBoundaryB`. -/
def evBoundaryA : CalEvent := mkEv "bA" "Early" 9 0 10 0

/-- An event 10:00–11:00 sharing its start with the end of `evBoundaryA`. -/
def evBoundaryB : CalEvent := mkEv "bB" "Late" 10 0 11 0

/-- 2025-04-21 06:00 UTC (a "now" before the 09:00 work-day start). -/
def now0421six : Int := mkUtc 2025 4 21 6 0

/-- Do the two events share an exact boundary instant in sorted order
(first event's end equal to second event's start, both valid)? -/
def sharesBoundary (e1 e2 : CalEvent) : Bool :=
  match e1.endD, e2.startD with
  | some v, some w => v == w
  | _, _ => false

/-- Every event's start and end date string parses to a valid instant. -/
def allValidDates (events : List CalEvent) : Prop :=
  ∀ e ∈ events, e.startD.isSome ∧ e.endD.isSome

/-! ### Theorems -/

/-- C6 (counterexample): `extractPersonName` of `route.ts` applied to
"Do I have a meeting with John today?" returns "John today", not "John":
the lazy capture runs to the final `?` because none of the stop literals
on/at/in occurs in "John today". -/
theorem extractPersonNameRoute_returns_john_today :
    extractPersonNameRoute "Do I have a meeting with John today?" = some "John today"
      ∧ "John today" ≠ "John" := by
  constructor
  · rfl
  · decide

/-- C6 (amended): the utils `extractPersonName` returns "John" for this
exact query, but only through its hard-coded special case; the shared
regex itself captures "John today"; the multi-word name "John Smith" is
likewise produced by the second special case. -/
theorem extractPersonName_special_cases :
    extractPersonNameUtils "Do I have a meeting with John today?" = some "John"
      ∧ extractPersonNameRoute "Do I have a meeting with John today?" = some "John today"
      ∧ extractPersonNameUtils "Meetings with John Smith this week" = some "John Smith" := by
  refine ⟨rfl, rfl, rfl⟩

/-- C2 (counterexample): with one event whose date strings do not parse,
the explicit-date query "meetings on 2025-04-21" makes
`processCalendarQuery` throw (the date filter calls `toISOString()` on
an Invalid Date), contradicting "never throws for malformed input". -/
theorem processCalendarQuery_throws_on_invalid_event_date :
    processCalendarQuery "meetings on 2025-04-21" [evBadDates] now0421
      = Except.error JsError.invalidTime := by
  rfl

/-- C3 (counterexample): `findFreeSlots` of `route.ts` on an empty event
list returns the empty list, not a single whole-window slot. -/
theorem findFreeSlotsRoute_empty_returns_nil :
    findFreeSlotsRoute [] now0421 = [] ∧ ([] : List String).length ≠ 1 := by
  exact ⟨rfl, by decide⟩

/-- C9 (counterexample): the strict-`<` `findOverlappingMeetings` of
`route.ts` is order-dependent for a zero-duration event sharing its
start with another event: `[zero, ten]` reports no overlap while
`[ten, zero]` reports one. -/
theorem findOverlappingMeetingsRoute_order_dependent :
    ¬ (findOverlappingMeetingsRoute [evZeroLen, evTenMin]).hasOverlaps
        = (findOverlappingMeetingsRoute [evTenMin, evZeroLen]).hasOverlaps := by
  decide

/-- C7 (counterexample): for Standup 10:00–10:30 and Review 10:15–11:00
and the query "Do I have any overlapping meetings today?", the engine
answers with the plain today listing — the word "today" routes the query
to the today branch, so no overlapping pair and no intersection window
are reported. -/
theorem overlap_query_with_today_reports_no_overlap :
    processCalendarQuery "Do I have any overlapping meetings today?" [evStandup, evReview] now0421
        = Except.ok ⟨todayListingAnswer, some [evStandup, evReview]⟩
      ∧ strIncludes todayListingAnswer "overlap" = false := by
  exact ⟨rfl, by decide⟩

/-- C7 (amended): with "today" in the query the today branch answers
with the two-meeting listing (both events highlighted); dropping
"today" reaches the overlap branch, which reports exactly one pair with
intersection `overlapStart = max(starts) = 10:15` and
`overlapEnd = min(ends) = 10:30`; the overlap engine itself returns
exactly that pair. -/
theorem overlap_scenario_behavior :
    processCalendarQuery "Do I have any overlapping meetings today?" [evStandup, evReview] now0421
        = Except.ok ⟨todayListingAnswer, some [evStandup, evReview]⟩
      ∧ processCalendarQuery "Do I have any overlapping meetings?" [evStandup, evReview] now0421
        = Except.ok ⟨overlapListingAnswer, some [evStandup, evReview]⟩
      ∧ findOverlappingMeetingsRoute [evStandup, evReview]
        = ⟨[⟨evStandup, evReview, some (mkUtc 2025 4 21 10 15), some (mkUtc 2025 4 21 10 30)⟩],
           true⟩ := by
  refine ⟨rfl, rfl, rfl⟩

/-- C5 (counterexample): the query "meetings on 21/04/2025 today"
matches both the literal-date pattern (it parses to 2025-04-21, the very
day of the event) and the "today" keyword, yet the engine answers from
the today branch — "no meetings today", with no highlighted events —
instead of filtering by the parsed date. -/
theorem today_word_beats_explicit_date :
    processCalendarQuery "meetings on 21/04/2025 today" [evSync] now0410
        = Except.ok ⟨"You have no meetings scheduled for today.", none⟩
      ∧ queryTargetDate (jsTrim (jsToLower "meetings on 21/04/2025 today"))
        = some (mkUtc 2025 4 21 0 0)
      ∧ isoDayKeyE evSync.startD = Except.ok (isoDayKey (mkUtc 2025 4 21 0 0)) := by
  refine ⟨rfl, rfl, rfl⟩

/-- C5 (amended): the priority order of the dispatcher is today,
tomorrow, literal explicit date, named weekday: any query whose
normalized form contains "today" is answered by the today branch
(filtering by today's ISO day key), regardless of an explicit date in
the query. -/
theorem today_branch_priority (q : String) (events : List CalEvent) (now : Int)
    (h : strIncludes (jsTrim (jsToLower q)) "today" = true) :
    processCalendarQuery q events now
      = Except.ok (wrapResult (todayBranch (jsTrim (jsToLower q)) events (isoDayKey now))) := by
  unfold processCalendarQuery processCalendarQueryCore dispatchCore
  simp [h, Except.map]

/-- Witness for `today_branch_priority` at a concrete input. -/
theorem today_branch_priority_witness :
    processCalendarQuery "today" [] now0421
      = Except.ok (wrapResult (todayBranch (jsTrim (jsToLower "today")) [] (isoDayKey now0421))) :=
  today_branch_priority "today" [] now0421 (by decide)

/-- C8 (counterexample): the meeting-type branch does not short-circuit
a "how many" query to a count-only sentence — the itemized bullet list
is emitted and no listing offer appears. -/
theorem how_many_type_query_lists_items :
    processCalendarQuery "how many interview meetings do i have" [evInterview] now0421
        = Except.ok ⟨interviewListingAnswer, some [evInterview]⟩
      ∧ strIncludes "how many interview meetings do i have" "how many" = true
      ∧ strIncludes interviewListingAnswer "Would you like me to list them?" = false
      ∧ strIncludes interviewListingAnswer "• **" = true := by
  refine ⟨rfl, by decide, by decide, by decide⟩

/-- C8 (amended): the today branch (like the tomorrow, explicit-date,
weekday, person and find-meeting branches) short-circuits a "how many"
query with matches to a count-only sentence offering to list; the
meeting-type branch has no such short-circuit and always emits the full
itemized list. -/
theorem count_policy_contrast :
    (∀ (nq : String) (events : List CalEvent) (todayStr : String),
        strIncludes nq "how many" = true →
        events.filter (fun e => strIncludes e.start todayStr) ≠ [] →
        (todayBranch nq events todayStr).1 =
          "You have " ++ toString (events.filter (fun e => strIncludes e.start todayStr)).length
            ++ " meeting" ++ plural (events.filter (fun e => strIncludes e.start todayStr)).length
            ++ " today. Would you like me to list them?")
    ∧ (∀ (nq : String) (events : List CalEvent) (now : Int) (related0 : List CalEvent),
        strIncludes nq "how many" = true →
        queryMeetingType nq ≠ "" →
        meetingTypeMatches nq events now ≠ [] →
        meetingTypeBranch nq events now related0 =
          ("You have " ++ toString (meetingTypeMatches nq events now).length ++ " "
             ++ queryMeetingType nq ++ " meeting"
             ++ plural (meetingTypeMatches nq events now).length
             ++ " " ++ (meetingTypeWindow nq now).2.2 ++ ":" ++ "\n"
             ++ String.intercalate "\n" ((meetingTypeMatches nq events now).map fun e =>
                  "• **" ++ e.title ++ "** on " ++ bulletDayName e.startD ++ " from "
                    ++ formatTimeJS e.startD ++ " to " ++ formatTimeJS e.endD),
           meetingTypeMatches nq events now)) := by
  constructor
  · intro nq events todayStr hcount hne
    unfold todayBranch
    have hc : isCountQuery nq = true := by unfold isCountQuery; rw [hcount]; rfl
    have hemp : (events.filter (fun e => strIncludes e.start todayStr)).isEmpty = false := by
      simpa [List.isEmpty_iff] using hne
    simp [hemp, hc]
  · intro nq events now related0 _ htype hne
    unfold meetingTypeBranch
    have ht : (queryMeetingType nq == "") = false := by
      simpa using htype
    have hemp : (meetingTypeMatches nq events now).isEmpty = false := by
      simpa [List.isEmpty_iff] using hne
    simp [ht, hemp]

/-- Reducing `format12` of a day-start offset to the offset itself. -/
theorem format12_dayOffset (now hms : Int) (h0 : 0 ≤ hms) (h1 : hms < msPerDay) :
    format12 (dayStart now + hms) = format12ms hms := by
  unfold format12 dayStart
  congr 1
  simp only [msPerDay] at h1 ⊢
  generalize (now / 86400000) = q
  omega

/-- The 09:00 anchor always renders as "9:00 AM". -/
theorem format12_nineAm (now : Int) : format12 (nineAmOf now) = "9:00 AM" := by
  unfold nineAmOf
  rw [format12_dayOffset now (9 * msPerHour) (by norm_num [msPerHour])
    (by norm_num [msPerHour, msPerDay])]
  decide

/-- The 18:00 bound always renders as "6:00 PM" (whatever sub-second
milliseconds `setHours(18,0,0)` leaves in place). -/
theorem format12_endOfDay18 (now : Int) : format12 (endOfDay18 now) = "6:00 PM" := by
  unfold endOfDay18
  have h0 : 0 ≤ (now % 1000) := Int.emod_nonneg now (by norm_num)
  have h1 : (now % 1000) < 1000 := Int.emod_lt_of_pos now (by norm_num)
  generalize hr : (now % 1000) = r at h0 h1 ⊢
  rw [show dayStart now + 18 * msPerHour + r
      = dayStart now + (18 * msPerHour + r) by ring]
  rw [format12_dayOffset now _ (by simp only [msPerHour]; omega)
    (by simp only [msPerHour, msPerDay]; omega)]
  simp only [format12ms]
  have e1 : ((18 * msPerHour + r) / msPerHour) = 18 := by
    simp only [msPerHour]; omega
  have e2 : (((18 * msPerHour + r) % msPerHour)) / msPerMinute = 0 := by
    simp only [msPerHour, msPerMinute]; omega
  rw [e1, e2]
  decide

/-- C3 (amended): for every `now`, the utils `findFreeSlots` on an empty
event list emits exactly the one slot "From 9:00 AM to 6:00 PM"
(09:00–18:00 of the day of `now`, regardless of where `now` falls),
while the `route.ts` version returns the empty list. -/
theorem findFreeSlots_empty_contrast (now : Int) :
    findFreeSlotsUtils [] now = ["From 9:00 AM to 6:00 PM"]
      ∧ findFreeSlotsRoute [] now = [] := by
  constructor
  · have h9 := format12_nineAm now
    have h18 := format12_endOfDay18 now
    simp [findFreeSlotsUtils, formatSlot, h9, h18]
  · rfl

/-- Sorting a two-element list whose first element may come first leaves
it in place (stable sort). -/
theorem sortByStart_pair (A B : CalEvent) (h : startLe A B = true) :
    sortByStart [A, B] = [A, B] := by
  simp [sortByStart, List.insertionSort, List.orderedInsert, h]

/-- With valid, distinct start instants, both input orders of a pair
sort to the same list. -/
theorem sortByStart_pair_swap (A B : CalEvent) (x y : Int) (hA : A.startD = some x)
    (hB : B.startD = some y) (hxy : x ≠ y) :
    sortByStart [A, B] = sortByStart [B, A] := by
  rcases lt_or_gt_of_ne hxy with h | h
  · have hAB : startLe A B = true := by
      unfold startLe; rw [hA, hB]; exact decide_eq_true (le_of_lt h)
    have hBA : startLe B A = false := by
      unfold startLe; rw [hA, hB]; simp; omega
    simp [sortByStart, List.insertionSort, List.orderedInsert, hAB, hBA]
  · have hAB : startLe A B = false := by
      unfold startLe; rw [hA, hB]; simp; omega
    have hBA : startLe B A = true := by
      unfold startLe; rw [hA, hB]; exact decide_eq_true (le_of_lt h)
    simp [sortByStart, List.insertionSort, List.orderedInsert, hAB, hBA]

/-- Source `findOverlappingMeetings` depends on its input only through the
sorted list and the length test. -/
theorem findOverlappingMeetingsWith_congr (strict : Bool) (l1 l2 : List CalEvent)
    (hs : sortByStart l1 = sortByStart l2) (hl : l1.length = l2.length) :
    findOverlappingMeetingsWith strict l1 = findOverlappingMeetingsWith strict l2 := by
  unfold findOverlappingMeetingsWith
  rw [hs, hl]

/-- C9 (amended): for every pair of events with valid and distinct start
instants, `hasOverlaps` is independent of input order (both at the
strict-`<` route call site and the inclusive-`<=` utils call site);
pairs sharing a start instant can be order-dependent under the strict
rule. -/
theorem hasOverlaps_symmetric_distinct_starts (A B : CalEvent) (x y : Int)
    (hA : A.startD = some x) (hB : B.startD = some y) (hxy : x ≠ y) :
    (findOverlappingMeetingsRoute [A, B]).hasOverlaps
        = (findOverlappingMeetingsRoute [B, A]).hasOverlaps
      ∧ (findOverlappingMeetingsUtils [A, B]).hasOverlaps
        = (findOverlappingMeetingsUtils [B, A]).hasOverlaps := by
  have hsort := sortByStart_pair_swap A B x y hA hB hxy
  have h1 := findOverlappingMeetingsWith_congr true [A, B] [B, A] hsort rfl
  have h2 := findOverlappingMeetingsWith_congr false [A, B] [B, A] hsort rfl
  unfold findOverlappingMeetingsRoute findOverlappingMeetingsUtils
  exact ⟨congrArg OverlapResult.hasOverlaps h1, congrArg OverlapResult.hasOverlaps h2⟩

/-- Witness for `hasOverlaps_symmetric_distinct_starts` at a concrete
pair. -/
theorem hasOverlaps_symmetric_distinct_starts_witness :
    (findOverlappingMeetingsRoute [evStandup, evReview]).hasOverlaps
        = (findOverlappingMeetingsRoute [evReview, evStandup]).hasOverlaps
      ∧ (findOverlappingMeetingsUtils [evStandup, evReview]).hasOverlaps
        = (findOverlappingMeetingsUtils [evReview, evStandup]).hasOverlaps :=
  hasOverlaps_symmetric_distinct_starts evStandup evReview
    (mkUtc 2025 4 21 10 0) (mkUtc 2025 4 21 10 15) rfl rfl (by decide)

/-- Membership is preserved by the stable sort. -/
theorem mem_sortByStart {a : CalEvent} {l : List CalEvent} : a ∈ sortByStart l ↔ a ∈ l :=
  (List.perm_insertionSort _ l).mem_iff

/-- The cursor of the free-slot loop never moves backwards. -/
theorem le_advanceCursor (c : Int) (e : CalEvent) : c ≤ advanceCursor c e := by
  unfold advanceCursor
  cases e.endD with
  | none => exact le_refl c
  | some t => dsimp only; split <;> omega

/-- A gap span starts at the cursor and ends at the event's (valid)
start instant. -/
theorem gapSlot_spec (c : Int) (e : CalEvent) (p : Int × Int) (hp : p ∈ gapSlot c e) :
    p.1 = c ∧ e.startD = some p.2 := by
  unfold gapSlot at hp
  split at hp
  next s heq =>
    split at hp
    · simp only [List.mem_singleton] at hp
      subst hp
      exact ⟨rfl, heq⟩
    · simp at hp
  next heq => simp at hp

/-- Invariant of the free-slot walk: every emitted span starts at or
after the initial cursor and ends at some event's start instant, and
the final cursor is at or after the initial one. -/
theorem freeSlotsScan_spec (l : List CalEvent) : ∀ c : Int,
    (∀ p ∈ (freeSlotsScan l c).1, c ≤ p.1 ∧ ∃ e ∈ l, e.startD = some p.2)
      ∧ c ≤ (freeSlotsScan l c).2 := by
  induction l with
  | nil =>
    intro c
    refine ⟨?_, le_refl c⟩
    intro p hp
    simp [freeSlotsScan] at hp
  | cons e rest ih =>
    intro c
    constructor
    · intro p hp
      simp only [freeSlotsScan, List.mem_append] at hp
      rcases hp with h | h
      · obtain ⟨h1, h2⟩ := gapSlot_spec c e p h
        exact ⟨h1 ▸ le_refl c, ⟨e, by simp, h2⟩⟩
      · obtain ⟨hle, e2, he2, hs⟩ := (ih (advanceCursor c e)).1 p h
        exact ⟨le_trans (le_advanceCursor c e) hle, e2, by simp [he2], hs⟩
    · calc c ≤ advanceCursor c e := le_advanceCursor c e
        _ ≤ (freeSlotsScan rest (advanceCursor c e)).2 := (ih (advanceCursor c e)).2
        _ = (freeSlotsScan (e :: rest) c).2 := rfl

/-- C4 (amended): `findFreeSlots` of `route.ts` anchors its scan at
`now` itself (not at `max(now, 09:00)`), and the utils version at 09:00
of the day of `now` (not at `max(now, 09:00)` either): every emitted
span begins at or after the respective anchor, and ends either at 18:00
of the day of `now` (the trailing span) or at the start instant of one
of the events — which may lie after 18:00. -/
theorem freeSlots_actual_anchor (events : List CalEvent) (now : Int) (p : Int × Int) :
    (p ∈ freeSlotSpansRoute events now →
      now ≤ p.1 ∧ (p.2 = endOfDay18 now ∨ ∃ e ∈ events, e.startD = some p.2))
    ∧ (p ∈ freeSlotSpansUtils events now →
      nineAmOf now ≤ p.1 ∧ (p.2 = endOfDay18 now ∨ ∃ e ∈ events, e.startD = some p.2)) := by
  constructor
  · intro hp
    unfold freeSlotSpansRoute at hp
    rcases List.mem_append.1 hp with h | h
    · obtain ⟨hle, e, he, hs⟩ := (freeSlotsScan_spec (sortByStart events) now).1 p h
      exact ⟨hle, Or.inr ⟨e, mem_sortByStart.1 he, hs⟩⟩
    · by_cases hc : endOfDay18 now - (freeSlotsScan (sortByStart events) now).2 > 1800000
      · rw [if_pos hc] at h
        simp at h
        rw [h]
        exact ⟨(freeSlotsScan_spec (sortByStart events) now).2, Or.inl rfl⟩
      · rw [if_neg hc] at h; simp at h
  · intro hp
    unfold freeSlotSpansUtils at hp
    rcases List.mem_append.1 hp with h | h
    · obtain ⟨hle, e, he, hs⟩ := (freeSlotsScan_spec (sortByStart events) (nineAmOf now)).1 p h
      exact ⟨hle, Or.inr ⟨e, mem_sortByStart.1 he, hs⟩⟩
    · by_cases hc : endOfDay18 now - (freeSlotsScan (sortByStart events) (nineAmOf now)).2 > 1800000
      · rw [if_pos hc] at h
        simp at h
        rw [h]
        exact ⟨(freeSlotsScan_spec (sortByStart events) (nineAmOf now)).2, Or.inl rfl⟩
      · rw [if_neg hc] at h; simp at h

/-- Witness for `freeSlots_actual_anchor` at a concrete span. -/
theorem freeSlots_actual_anchor_witness :
    now0421six ≤ (now0421six, mkUtc 2025 4 21 10 0).1
      ∧ ((now0421six, mkUtc 2025 4 21 10 0).2 = endOfDay18 now0421six
          ∨ ∃ e ∈ [evSync], e.startD = some (now0421six, mkUtc 2025 4 21 10 0).2) :=
  (freeSlots_actual_anchor [evSync] now0421six (now0421six, mkUtc 2025 4 21 10 0)).1
    (by decide)

/-- C4 (counterexample): with `now` = 06:00, the route free-slot scan
emits a slot beginning at 6:00 AM — before the claimed anchor
`max(now, 09:00) = 09:00`. -/
theorem freeSlots_anchor_counterexample :
    findFreeSlotsRoute [evSync] now0421six
        = ["From 6:00 AM to 10:00 AM", "From 11:00 AM to 6:00 PM"]
      ∧ freeSlotSpansRoute [evSync] now0421six
        = [(now0421six, mkUtc 2025 4 21 10 0), (mkUtc 2025 4 21 11 0, endOfDay18 now0421six)]
      ∧ now0421six < nineAmOf now0421six := by
  refine ⟨rfl, rfl, by decide⟩

/-- The two pair tests agree on any pair that does not share an exact
boundary instant. -/
theorem overlapCond_eq_of_not_boundary (e1 e2 : CalEvent)
    (h : sharesBoundary e1 e2 = false) :
    overlapCond true e1 e2 = overlapCond false e1 e2 := by
  unfold sharesBoundary at h
  unfold overlapCond jsLtD jsLeD
  cases hE : e1.endD with
  | none => cases e2.startD <;> rfl
  | some v =>
    cases hS : e2.startD with
    | none => rfl
    | some w =>
      rw [hE, hS] at h
      have hne : v ≠ w := by simpa using h
      by_cases hwv : w < v
      · simp [hwv, le_of_lt hwv]
      · have hnle : ¬ w ≤ v := fun hle => hwv (lt_of_le_of_ne hle fun e => hne e.symm)
        simp [hwv, hnle]

/-- Source `filterMap` congruence on members. -/
theorem filterMap_congr_on {α β : Type} (l : List α) (f g : α → Option β)
    (h : ∀ a ∈ l, f a = g a) : l.filterMap f = l.filterMap g := by
  induction l with
  | nil => rfl
  | cons a t ih =>
    simp only [List.filterMap_cons]
    rw [h a (by simp), ih fun x hx => h x (by simp [hx])]

/-- On a sorted list without shared boundary instants, the strict and
inclusive scans flag exactly the same pairs. -/
theorem overlapScan_boundary_free (l : List CalEvent)
    (h : l.Pairwise fun e1 e2 => sharesBoundary e1 e2 = false) :
    overlapScan true l = overlapScan false l := by
  induction l with
  | nil => rfl
  | cons e rest ih =>
    rw [List.pairwise_cons] at h
    unfold overlapScan
    rw [ih h.2]
    congr 1
    apply filterMap_congr_on
    intro e2 he2
    rw [overlapCond_eq_of_not_boundary e e2 (h.1 e2 he2)]

/-- C1: at an exact shared boundary (first event's end equal to the
second's start) the `route.ts` overlap engine reports no overlap while
the utils engine reports one; and on any input whose sorted order has no
pair sharing a boundary instant, the two engines return identical
results (same overlaps, same `hasOverlaps`). -/
theorem overlap_boundary_rules :
    (∀ (A B : CalEvent) (a v : Int),
        A.startD = some a → A.endD = some v → B.startD = some v → a ≤ v →
        (findOverlappingMeetingsRoute [A, B]).hasOverlaps = false
          ∧ (findOverlappingMeetingsUtils [A, B]).hasOverlaps = true)
    ∧ ∀ events : List CalEvent,
        (sortByStart events).Pairwise (fun e1 e2 => sharesBoundary e1 e2 = false) →
        findOverlappingMeetingsRoute events = findOverlappingMeetingsUtils events := by
  constructor
  · intro A B a v hA hAe hB hav
    have hAB : startLe A B = true := by
      unfold startLe; rw [hA, hB]; exact decide_eq_true hav
    have hsort := sortByStart_pair A B hAB
    have hlen : ¬ ([A, B] : List CalEvent).length < 2 := by simp
    constructor
    · unfold findOverlappingMeetingsRoute findOverlappingMeetingsWith
      rw [if_neg hlen, hsort]
      simp [overlapScan, overlapCond, jsLtD, hB, hAe]
    · unfold findOverlappingMeetingsUtils findOverlappingMeetingsWith
      rw [if_neg hlen, hsort]
      simp [overlapScan, overlapCond, jsLeD, hB, hAe, mkOverlap]
  · intro events h
    unfold findOverlappingMeetingsRoute findOverlappingMeetingsUtils
      findOverlappingMeetingsWith
    by_cases hl : events.length < 2
    · rw [if_pos hl, if_pos hl]
    · rw [if_neg hl, if_neg hl, overlapScan_boundary_free (sortByStart events) h]

/-- Witness for `overlap_boundary_rules`: a concrete shared-boundary
pair (09:00–10:00 and 10:00–11:00), and a concrete boundary-free pair on
which the two engines agree. -/
theorem overlap_boundary_rules_witness :
    ((findOverlappingMeetingsRoute [evBoundaryA, evBoundaryB]).hasOverlaps = false
      ∧ (findOverlappingMeetingsUtils [evBoundaryA, evBoundaryB]).hasOverlaps = true)
    ∧ findOverlappingMeetingsRoute [evStandup, evReview]
        = findOverlappingMeetingsUtils [evStandup, evReview] := by
  constructor
  · exact overlap_boundary_rules.1 evBoundaryA evBoundaryB
      (mkUtc 2025 4 21 9 0) (mkUtc 2025 4 21 10 0) rfl rfl rfl (by decide)
  · exact overlap_boundary_rules.2 [evStandup, evReview] (by decide)

/-- C10: in every result of the rule-based engine and of the Claude-path
result builder, `relatedEvents` is either absent or a nonempty list —
the final guard `relatedEvents.length > 0 ? relatedEvents : undefined`
never lets an empty array through. -/
theorem relatedEvents_absent_or_nonempty :
    (∀ (q : String) (events : List CalEvent) (now : Int) (r : QueryResult) (l : List CalEvent),
        processCalendarQuery q events now = Except.ok r → r.relatedEvents = some l → l ≠ [])
    ∧ (∀ (ai q : String) (events : List CalEvent) (now : Int) (l : List CalEvent),
        (getClaudeResult ai q events now).relatedEvents = some l → l ≠ []) := by
  constructor
  · intro q events now r l hok hrel
    unfold processCalendarQuery at hok
    cases hcore : processCalendarQueryCore q events now with
    | error e => rw [hcore] at hok; simp [Except.map] at hok
    | ok pr =>
      rw [hcore] at hok
      simp only [Except.map, Except.ok.injEq] at hok
      rw [← hok] at hrel
      unfold wrapResult at hrel
      by_cases hlen : pr.2.length > 0
      · rw [if_pos hlen] at hrel
        simp at hrel
        rw [← hrel]
        exact List.ne_nil_of_length_pos hlen
      · rw [if_neg hlen] at hrel
        simp at hrel
  · intro ai q events now l hrel
    unfold getClaudeResult at hrel
    by_cases hlen : (claudeRelatedEvents q events now).length > 0
    · simp only [if_pos hlen, Option.some.injEq] at hrel
      rw [← hrel]
      exact List.ne_nil_of_length_pos hlen
    · simp only [if_neg hlen] at hrel
      simp at hrel

/-- Witness for `relatedEvents_absent_or_nonempty` at a concrete input
whose result carries a `relatedEvents` list. -/
theorem relatedEvents_absent_or_nonempty_witness : ([evStandup] : List CalEvent) ≠ [] :=
  relatedEvents_absent_or_nonempty.2 "the answer" "today" [evStandup] now0421 [evStandup]
    (by rfl)

/-- Reduction of a successful `Except` bind. -/
theorem bind_ok_reduce {α β : Type} (a : α) (f : α → Except JsError β) :
    (Except.ok a >>= f) = f a := rfl

/-- A throwing filter succeeds when the predicate succeeds on every
member, and only keeps members. -/
theorem filterEM_ok (p : CalEvent → Except JsError Bool) (l : List CalEvent)
    (h : ∀ a ∈ l, ∃ b, p a = Except.ok b) :
    ∃ r, filterEM p l = Except.ok r ∧ ∀ a ∈ r, a ∈ l := by
  induction l with
  | nil => exact ⟨[], rfl, by simp⟩
  | cons a t ih =>
    obtain ⟨b, hb⟩ := h a (by simp)
    obtain ⟨r, hr, hmem⟩ := ih fun x hx => h x (by simp [hx])
    cases b with
    | false =>
      refine ⟨r, ?_, fun x hx => by simp [hmem x hx]⟩
      unfold filterEM
      simp only [hb, hr]
      rfl
    | true =>
      refine ⟨a :: r, ?_, ?_⟩
      · unfold filterEM
        simp only [hb, hr]
        rfl
      · intro x hx
        rcases List.mem_cons.1 hx with rfl | hx
        · simp
        · simp [hmem x hx]

/-- A throwing map succeeds when the function succeeds on every member. -/
theorem mapEM_ok (f : CalEvent → Except JsError String) (l : List CalEvent)
    (h : ∀ a ∈ l, ∃ b, f a = Except.ok b) : ∃ r, mapEM f l = Except.ok r := by
  induction l with
  | nil => exact ⟨[], rfl⟩
  | cons a t ih =>
    obtain ⟨b, hb⟩ := h a (by simp)
    obtain ⟨r, hr⟩ := ih fun x hx => h x (by simp [hx])
    refine ⟨b :: r, ?_⟩
    unfold mapEM
    simp only [hb, hr]
    rfl

/-- The ISO-day-key filter predicate succeeds on an event with a valid
start date. -/
theorem isoStartEq_ok (key : String) (e : CalEvent) (h : e.startD.isSome) :
    ∃ b, isoStartEq key e = Except.ok b := by
  obtain ⟨s, hs⟩ := Option.isSome_iff_exists.1 h
  unfold isoStartEq isoDayKeyE
  rw [hs]
  exact ⟨_, rfl⟩

/-- The ISO-day-key filter always succeeds on events with valid start
dates. -/
theorem filterEM_isoStartEq_ok (key : String) (events : List CalEvent)
    (h : ∀ e ∈ events, e.startD.isSome) :
    ∃ r, filterEM (isoStartEq key) events = Except.ok r ∧ ∀ a ∈ r, a ∈ events :=
  filterEM_ok (isoStartEq key) events fun a ha => isoStartEq_ok key a (h a ha)

/-- Source `formatTime(d.toISOString())` succeeds on a valid date. -/
theorem formatTimeIsoE_ok (d : Option Int) (h : d.isSome) :
    ∃ b, formatTimeIsoE d = Except.ok b := by
  obtain ⟨s, hs⟩ := Option.isSome_iff_exists.1 h
  unfold formatTimeIsoE
  rw [hs]
  exact ⟨_, rfl⟩

/-- The explicit-date branch succeeds when every event start parses. -/
theorem dateBranch_ok (nq : String) (events related0 : List CalEvent)
    (h : ∀ e ∈ events, e.startD.isSome) :
    ∃ r, dateBranch nq events related0 = Except.ok r := by
  unfold dateBranch
  cases queryTargetDate nq with
  | none => exact ⟨_, rfl⟩
  | some td =>
    obtain ⟨r, hr, -⟩ := filterEM_isoStartEq_ok (isoDayKey td) events h
    dsimp only
    rw [hr, bind_ok_reduce]
    split <;> (try split) <;> exact ⟨_, rfl⟩

/-- The weekday branch succeeds when every event start parses. -/
theorem weekdayBranch_ok (nq : String) (mw : Nat) (inw : Bool)
    (events : List CalEvent) (now : Int) (h : ∀ e ∈ events, e.startD.isSome) :
    ∃ r, weekdayBranch nq mw inw events now = Except.ok r := by
  unfold weekdayBranch
  dsimp only
  split <;>
  · obtain ⟨r, hr, -⟩ := filterEM_isoStartEq_ok _ events h
    rw [hr, bind_ok_reduce]
    split <;> (try split) <;> exact ⟨_, rfl⟩

/-- The overlap branch succeeds when every event start parses. -/
theorem overlapBranch_ok (nq : String) (events : List CalEvent) (now : Int)
    (related0 : List CalEvent) (h : ∀ e ∈ events, e.startD.isSome) :
    ∃ r, overlapBranch nq events now related0 = Except.ok r := by
  unfold overlapBranch
  dsimp only
  by_cases h1 : strIncludes nq "today" = true
  · obtain ⟨r, hr, -⟩ := filterEM_isoStartEq_ok (isoDayKey now) events h
    rw [if_pos h1, hr, bind_ok_reduce]
    split <;> (try split) <;> exact ⟨_, rfl⟩
  · by_cases h2 : strIncludes nq "tomorrow" = true
    · obtain ⟨r, hr, -⟩ := filterEM_isoStartEq_ok (isoDayKey (now + msPerDay)) events h
      rw [if_neg h1, if_pos h2, hr, bind_ok_reduce]
      split <;> (try split) <;> exact ⟨_, rfl⟩
    · rw [if_neg h1, if_neg h2, bind_ok_reduce]
      split <;> (try split) <;> exact ⟨_, rfl⟩

/-- The agenda branch succeeds when every event start parses. -/
theorem agendaBranch_ok (nq : String) (events : List CalEvent) (now : Int)
    (related0 : List CalEvent) (h : ∀ e ∈ events, e.startD.isSome) :
    ∃ r, agendaBranch nq events now related0 = Except.ok r := by
  unfold agendaBranch
  dsimp only
  obtain ⟨r, hr, -⟩ := filterEM_isoStartEq_ok _ events h
  rw [hr, bind_ok_reduce]
  split <;> (try split) <;> exact ⟨_, rfl⟩

/-- The availability branch succeeds when every event's start and end
parse. -/
theorem availabilityBranch_ok (nq : String) (events : List CalEvent) (now : Int)
    (todayStr : String) (related0 : List CalEvent) (h : allValidDates events) :
    ∃ r, availabilityBranch nq events now todayStr related0 = Except.ok r := by
  have hs : ∀ e ∈ events, e.startD.isSome := fun e he => (h e he).1
  have hpred : ∀ (f : CalEvent → Int → Bool) (a : CalEvent), a ∈ events →
      ∃ b, (match a.startD with
            | some s => Except.ok (f a s)
            | none => Except.error JsError.invalidTime) = Except.ok b := by
    intro f a ha
    obtain ⟨s, hsa⟩ := Option.isSome_iff_exists.1 (hs a ha)
    rw [hsa]
    exact ⟨_, rfl⟩
  unfold availabilityBranch
  cases scanAfterTime nq with
  | some g =>
    dsimp only
    obtain ⟨r, hr, hmem⟩ := filterEM_ok _ events (hpred _)
    rw [hr, bind_ok_reduce]
    cases hsr : sortByStart r with
    | nil => exact ⟨_, rfl⟩
    | cons ne rest =>
      have hne : ne ∈ events := hmem ne (mem_sortByStart.1 (hsr ▸ by simp))
      obtain ⟨s, hss⟩ := Option.isSome_iff_exists.1 (hs ne hne)
      dsimp only
      simp only [hss]
      split <;> (try split) <;> exact ⟨_, rfl⟩
  | none =>
  cases scanBeforeTime nq with
  | some g =>
    dsimp only
    obtain ⟨r, hr, hmem⟩ := filterEM_ok _ events (hpred _)
    rw [hr, bind_ok_reduce]
    cases hgl : (sortByEnd r).getLast? with
    | none => dsimp only; split <;> exact ⟨_, rfl⟩
    | some le =>
      have hle : le ∈ events := by
        have := List.mem_of_getLast?_eq_some hgl
        exact hmem le ((List.perm_insertionSort _ r).mem_iff.1 this)
      obtain ⟨t, ht⟩ := Option.isSome_iff_exists.1 (h le hle).2
      obtain ⟨b, hb⟩ := formatTimeIsoE_ok le.endD (by simp [ht])
      dsimp only
      simp only [hb, bind_ok_reduce]
      split <;> exact ⟨_, rfl⟩
  | none =>
  cases scanTime nq with
  | some g =>
    dsimp only
    split
    · exact ⟨_, rfl⟩
    · obtain ⟨r, hr, hmem⟩ := filterEM_ok _ events (hpred _)
      rw [hr, bind_ok_reduce]
      cases hro : r with
      | nil => exact ⟨_, rfl⟩
      | cons ev rest =>
        have hev : ev ∈ events := hmem ev (by simp [hro])
        obtain ⟨b1, hb1⟩ := formatTimeIsoE_ok ev.startD (hs ev hev)
        obtain ⟨b2, hb2⟩ := formatTimeIsoE_ok ev.endD (h ev hev).2
        dsimp only
        simp only [hb1, hb2, bind_ok_reduce]
        exact ⟨_, rfl⟩
  | none =>
    dsimp only
    split
    · exact ⟨_, rfl⟩
    · have hmem2 : ∀ e ∈ sortByStart (events.filter fun e =>
          strIncludes e.start todayStr && jsGtD e.endD (some now)), e ∈ events := by
        intro e he
        exact List.mem_of_mem_filter (mem_sortByStart.1 he)
      split
      · have hmap : ∀ a ∈ sortByStart (events.filter fun e =>
            strIncludes e.start todayStr && jsGtD e.endD (some now)),
            ∃ b, ((fun e => do
              let st ← formatTimeIsoE e.startD
              let en ← formatTimeIsoE e.endD
              pure ("• **" ++ e.title ++ "** from " ++ st ++ " to " ++ en)) a :
                Except JsError String) = Except.ok b := by
          intro a ha
          obtain ⟨b1, hb1⟩ := formatTimeIsoE_ok a.startD (hs a (hmem2 a ha))
          obtain ⟨b2, hb2⟩ := formatTimeIsoE_ok a.endD (h a (hmem2 a ha)).2
          simp only [hb1, hb2, bind_ok_reduce]
          exact ⟨_, rfl⟩
        obtain ⟨lines, hlines⟩ := mapEM_ok _ _ hmap
        rw [hlines, bind_ok_reduce]
        split <;> exact ⟨_, rfl⟩
      · split
        · split <;> exact ⟨_, rfl⟩
        · exact ⟨_, rfl⟩

set_option maxHeartbeats 2000000 in
/-- Every dispatcher branch succeeds on events with valid dates. -/
theorem dispatchCore_ok (nq : String) (events : List CalEvent) (now : Int)
    (related0 : List CalEvent) (todayStr tomorrowStr : String) (h : allValidDates events) :
    ∃ r, dispatchCore nq events now related0 todayStr tomorrowStr = Except.ok r := by
  have hs : ∀ e ∈ events, e.startD.isSome := fun e he => (h e he).1
  unfold dispatchCore
  split
  · exact ⟨_, rfl⟩
  split
  · exact ⟨_, rfl⟩
  split
  · exact dateBranch_ok _ _ _ hs
  split
  · exact weekdayBranch_ok _ _ _ _ _ hs
  split
  · exact ⟨_, rfl⟩
  split
  · exact ⟨_, rfl⟩
  split
  · exact overlapBranch_ok _ _ _ _ hs
  split
  · exact availabilityBranch_ok _ _ _ _ _ h
  split
  · exact agendaBranch_ok _ _ _ _ hs
  split
  · exact ⟨_, rfl⟩
  split
  · exact ⟨_, rfl⟩
  · exact ⟨_, rfl⟩

/-- C2 (amended): `processCalendarQuery` returns a result — it does not
throw — for every query string, every instant `now`, and every event
list in which each event's start and end strings parse as valid dates;
by the counterexample an unparseable event date string can make the
date-keyed branches throw, so validity of the event dates is required. -/
theorem processCalendarQuery_total (q : String) (events : List CalEvent) (now : Int)
    (h : allValidDates events) : ∃ r, processCalendarQuery q events now = Except.ok r := by
  obtain ⟨pr, hpr⟩ := dispatchCore_ok (jsTrim (jsToLower q)) events now
    (findRelatedEvents (jsTrim (jsToLower q)) events) (isoDayKey now)
    (isoDayKey (now + msPerDay)) h
  have hcore : processCalendarQueryCore q events now = Except.ok pr := hpr
  refine ⟨wrapResult pr, ?_⟩
  unfold processCalendarQuery
  rw [hcore]
  rfl

/-- Witness for `processCalendarQuery_total` at a concrete valid input. -/
theorem processCalendarQuery_total_witness :
    ∃ r, processCalendarQuery "meetings on 2025-04-21" [evStandup] now0421 = Except.ok r :=
  processCalendarQuery_total "meetings on 2025-04-21" [evStandup] now0421 (by
    intro e he
    simp only [List.mem_singleton] at he
    subst he
    exact ⟨rfl, rfl⟩)

/-- Witness for `count_policy_contrast` at concrete inputs. -/
theorem count_policy_contrast_witness :
    (todayBranch "how many meetings today" [evStandup] "2025-04-21").1 =
        "You have " ++ toString ([evStandup].filter
            (fun e => strIncludes e.start "2025-04-21")).length
          ++ " meeting" ++ plural ([evStandup].filter
            (fun e => strIncludes e.start "2025-04-21")).length
          ++ " today. Would you like me to list them?"
      ∧ meetingTypeBranch "how many interview meetings do i have" [evInterview] now0421 []
        = ("You have "
             ++ toString (meetingTypeMatches "how many interview meetings do i have"
                  [evInterview] now0421).length ++ " "
             ++ queryMeetingType "how many interview meetings do i have" ++ " meeting"
             ++ plural (meetingTypeMatches "how many interview meetings do i have"
                  [evInterview] now0421).length
             ++ " " ++ (meetingTypeWindow "how many interview meetings do i have" now0421).2.2
             ++ ":" ++ "\n"
             ++ String.intercalate "\n"
                  ((meetingTypeMatches "how many interview meetings do i have"
                      [evInterview] now0421).map fun e =>
                    "• **" ++ e.title ++ "** on " ++ bulletDayName e.startD ++ " from "
                      ++ formatTimeJS e.startD ++ " to " ++ formatTimeJS e.endD),
           meetingTypeMatches "how many interview meetings do i have" [evInterview] now0421) := by
  constructor
  · exact count_policy_contrast.1 "how many meetings today" [evStandup] "2025-04-21"
      (by decide) (by decide)
  · exact count_policy_contrast.2 "how many interview meetings do i have" [evInterview] now0421 []
      (by decide) (by decide) (by decide)

end UniCal
